import Mathlib

/-!
Verification development for the Agentic Retrieval Engine of the
Power-of-Attorney legal-search repository.

The embedding follows the Python sources:
  * `project/models/retrieval_state.py`   (data model, `add_article`, sorting)
  * `project/components/coverage_analyzer.py`
  * `project/components/crossref_expander.py`
  * `project/components/hyde_generator.py`
  * `project/components/retrieval_agent.py` (the orchestrator loop)

Modelling conventions:
  * Python floats are modelled as exact fractions `PyRat` (an integer
    numerator over a natural denominator, compared by cross-multiplication);
    every similarity/threshold in the source is produced by literals,
    addition, subtraction and division by a positive list length, so the
    exact-fraction model tracks the source arithmetic faithfully.
  * Python `str` values that the algorithms inspect are modelled as
    `Str := List Char`; `str.split`, `str.strip`, `str.lower`,
    `str.startswith`, the `in` substring test and slicing are given
    structurally recursive models (`pySplit`, `pyStrip`, `pyLower`,
    `List.isPrefixOf`, `strContains`, `List.take`).
  * Python `dict` is an insertion-ordered association list (`pyDictGet`,
    `pyDictSet` reproduce lookup and update-keeps-position / insert-appends),
    Python `set` is a duplicate-free list used only through membership.
  * Wall-clock latencies are inputs of the model (`iterLatency`), the
    `started_at` timestamp and per-call latency bookkeeping are modelled
    as zero; no claim depends on them.
  * The external collaborators (LLM completion, embedding, vector store)
    are oracle functions collected in `RetrievalEnv`; `none` models a
    raised exception (each caller catches every exception).
-/

/-! ## Exact-fraction model of Python floats -/

/-- Exact fraction standing for a Python float: numerator over a natural
denominator.  All values built by the model have a positive denominator. -/
structure PyRat where
  num : ℤ
  den : ℕ
deriving DecidableEq, Repr

/-- Embed an integer. -/
def PyRat.ofInt (n : ℤ) : PyRat := ⟨n, 1⟩

/-- Addition of fractions (no normalisation). -/
def PyRat.add (a b : PyRat) : PyRat :=
  ⟨a.num * (b.den : ℤ) + b.num * (a.den : ℤ), a.den * b.den⟩

/-- Subtraction of fractions (no normalisation). -/
def PyRat.sub (a b : PyRat) : PyRat :=
  ⟨a.num * (b.den : ℤ) - b.num * (a.den : ℤ), a.den * b.den⟩

/-- Multiplication of fractions (no normalisation). -/
def PyRat.mul (a b : PyRat) : PyRat := ⟨a.num * b.num, a.den * b.den⟩

/-- Division of a fraction by a natural number; the source only ever
divides by a positive list length. -/
def PyRat.divN (a : PyRat) (n : ℕ) : PyRat := ⟨a.num, a.den * n⟩

/-- Order on fractions by cross-multiplication; agrees with the rational
order whenever both denominators are positive. -/
def PyRat.le (a b : PyRat) : Prop := a.num * (b.den : ℤ) ≤ b.num * (a.den : ℤ)

/-- Strict order on fractions by cross-multiplication. -/
def PyRat.lt (a b : PyRat) : Prop := a.num * (b.den : ℤ) < b.num * (a.den : ℤ)

instance : LE PyRat := ⟨PyRat.le⟩

instance : LT PyRat := ⟨PyRat.lt⟩

instance (a b : PyRat) : Decidable (a ≤ b) :=
  inferInstanceAs (Decidable (a.num * (b.den : ℤ) ≤ b.num * (a.den : ℤ)))

instance (a b : PyRat) : Decidable (a < b) :=
  inferInstanceAs (Decidable (a.num * (b.den : ℤ) < b.num * (a.den : ℤ)))

/-- A fraction is well formed when its denominator is positive; every
float the source manipulates satisfies this. -/
def PyRat.posDen (a : PyRat) : Prop := 0 < a.den

/-- Interpretation into the rationals, used by the proofs. -/
def PyRat.toRat (a : PyRat) : ℚ := (a.num : ℚ) / (a.den : ℚ)

/-- Python `sum` over a list of floats (starts from the integer 0). -/
def PyRat.sumList (l : List PyRat) : PyRat := l.foldl PyRat.add (PyRat.ofInt 0)

theorem PyRat.le_iff_toRat {a b : PyRat} (ha : a.posDen) (hb : b.posDen) :
    a ≤ b ↔ a.toRat ≤ b.toRat := by
  have ha' : (0 : ℚ) < (a.den : ℚ) := by exact_mod_cast ha
  have hb' : (0 : ℚ) < (b.den : ℚ) := by exact_mod_cast hb
  unfold PyRat.toRat
  rw [div_le_div_iff ha' hb']
  constructor
  · intro h
    exact_mod_cast h
  · intro h
    exact_mod_cast h

theorem PyRat.lt_iff_toRat {a b : PyRat} (ha : a.posDen) (hb : b.posDen) :
    a < b ↔ a.toRat < b.toRat := by
  have ha' : (0 : ℚ) < (a.den : ℚ) := by exact_mod_cast ha
  have hb' : (0 : ℚ) < (b.den : ℚ) := by exact_mod_cast hb
  unfold PyRat.toRat
  rw [div_lt_div_iff ha' hb']
  constructor
  · intro h
    exact_mod_cast h
  · intro h
    exact_mod_cast h

/-! ## Python string model -/

/-- Model of a Python `str` as its list of code points. -/
abbrev Str := List Char

/-- Whitespace stripped by Python `str.strip()` (the ASCII subset; the
texts the source strips only contain these). -/
def pySpaceChar (c : Char) : Bool :=
  c = ' ' ∨ c = '\t' ∨ c = '\n' ∨ c = '\r' ∨ c = '\x0b' ∨ c = '\x0c'

/-- Python `str.strip()`. -/
def pyStrip (s : Str) : Str :=
  ((s.dropWhile pySpaceChar).reverse.dropWhile pySpaceChar).reverse

/-- Python `str.lower()` (ASCII case folding; the Arabic corpus text is
unaffected by lowering). -/
def pyLower (s : Str) : Str := s.map Char.toLower

/-- Python substring test `needle in hay`. -/
def strContains (hay needle : Str) : Bool :=
  match hay with
  | [] => needle.isEmpty
  | _ :: t => needle.isPrefixOf hay || strContains t needle

/-- Worker for `pySplit`; the fuel is one more than the length of the
scanned text, which the wrapper supplies, so the first branch is never
taken on the wrapper's calls. -/
def pySplitFuel (sep : Str) : ℕ → Str → Str → List Str
  | 0, s, cur => [cur.reverse ++ s]
  | _ + 1, [], cur => [cur.reverse]
  | fuel + 1, c :: rest, cur =>
    if sep.isPrefixOf (c :: rest) then
      cur.reverse :: pySplitFuel sep fuel (List.drop sep.length (c :: rest)) []
    else
      pySplitFuel sep fuel rest (c :: cur)

/-- Python `s.split(sep)` for a non-empty separator: non-overlapping
left-to-right matches, empty pieces kept. -/
def pySplit (s sep : Str) : List Str := pySplitFuel sep (s.length + 1) s []

/-! ## Data model (`project/models/retrieval_state.py`) -/

/-- Purpose of each iteration in the agentic loop . -/
inductive IterationPurpose where
  | broad_retrieval
  | gap_filling
  | reference_expansion
deriving DecidableEq, Repr

/-- Reasons for stopping the retrieval loop. -/
inductive StopReason where
  | coverage_threshold_met
  | confidence_threshold_met
  | agent_self_assessment
  | diminishing_returns
  | max_iterations_reached
  | max_articles_reached
  | max_latency_reached
  | error
deriving DecidableEq, Repr

/-- String value of a `StopReason`, as in the Python `str`-valued enum. -/
def StopReason.value : StopReason → String
  | .coverage_threshold_met => "coverage_threshold_met"
  | .confidence_threshold_met => "confidence_threshold_met"
  | .agent_self_assessment => "agent_self_assessment"
  | .diminishing_returns => "diminishing_returns"
  | .max_iterations_reached => "max_iterations_reached"
  | .max_articles_reached => "max_articles_reached"
  | .max_latency_reached => "max_latency_reached"
  | .error => "error"

/-- Configuration for the retrieval system, with the dataclass defaults. -/
structure RetrievalConfig where
  hyde_enabled : Bool := true
  hyde_language : String := "arabic"
  hyde_num_hypotheticals : ℕ := 2
  hyde_temperature : PyRat := ⟨7, 10⟩
  max_iterations : ℕ := 3
  max_articles : ℕ := 30
  max_latency_ms : ℕ := 30000
  max_llm_calls : ℕ := 15
  coverage_threshold : PyRat := ⟨8, 10⟩
  confidence_threshold : PyRat := ⟨55, 100⟩
  min_articles : ℕ := 5
  min_area_similarity : PyRat := ⟨5, 10⟩
  enable_cross_references : Bool := true
  enable_coverage_check : Bool := true
  save_artifacts : Bool := true

/-- Log for a single query execution. -/
structure QueryLog where
  query_id : String
  query_type : String
  query_text : Str
  query_language : String
  hypothetical_generated : Option Str := none
  articles_found : List ℤ := []
  similarities : List PyRat := []
  hyde_latency_ms : ℕ := 0
  embedding_latency_ms : ℕ := 0
  search_latency_ms : ℕ := 0
  total_latency_ms : ℕ := 0
deriving DecidableEq

/-- An article with retrieval metadata (the `ArticleResult` dataclass;
its exact field set decides the `TypeError` analysed at C1). -/
structure ArticleResult where
  article_number : ℤ
  text_arabic : Str
  text_english : Str
  hierarchy_path : List (String × String) := []
  found_by_query : Str
  found_in_iteration : ℕ
  similarity : PyRat
  is_cross_reference : Bool := false
  referenced_by : Option ℤ := none
  matched_legal_areas : List String := []
deriving DecidableEq

/-- Tri-state coverage status. -/
inductive AreaStatus where
  | covered
  | weak
  | missing
deriving DecidableEq, Repr

/-- String value of an `AreaStatus` literal. -/
def AreaStatus.value : AreaStatus → String
  | .covered => "covered"
  | .weak => "weak"
  | .missing => "missing"

/-- Status of coverage for a legal area. -/
structure CoverageStatus where
  area_id : String
  area_name_en : String
  area_name_ar : String
  required : Bool
  articles_found : List ℤ := []
  avg_similarity : PyRat := ⟨0, 1⟩
  max_similarity : PyRat := ⟨0, 1⟩
  status : AreaStatus := .missing
deriving DecidableEq

/-- Log for a single iteration of the retrieval loop. -/
structure IterationLog where
  iteration_number : ℕ
  purpose : IterationPurpose
  queries : List QueryLog := []
  coverage_before : List (String × String) := []
  coverage_after : List (String × String) := []
  gaps_identified : List String := []
  articles_retrieved : List ℤ := []
  articles_new : List ℤ := []
  cross_refs_found : List ℤ := []
  llm_calls : ℕ := 0
  embedding_calls : ℕ := 0
  latency_ms : ℕ := 0
  agent_reasoning : Option String := none
deriving DecidableEq

/-- Python dict lookup `d.get(k)` on an insertion-ordered association
list. -/
def pyDictGet {α β : Type} [DecidableEq α] : List (α × β) → α → Option β
  | [], _ => none
  | (k', v) :: rest, k => if k' = k then some v else pyDictGet rest k

/-- Python dict assignment `d[k] = v`: updating an existing key keeps its
position, a new key is appended. -/
def pyDictSet {α β : Type} [DecidableEq α] : List (α × β) → α → β → List (α × β)
  | [], k, v => [(k, v)]
  | (k', v') :: rest, k, v =>
    if k' = k then (k, v) :: rest else (k', v') :: pyDictSet rest k v

/-- State maintained across iterations of the agentic loop.  The
`started_at` timestamp is a wall-clock value and is not modelled. -/
structure RetrievalState where
  application_id : String
  iteration : ℕ := 0
  iteration_logs : List IterationLog := []
  articles : List (ℤ × ArticleResult) := []
  coverage : List (String × CoverageStatus) := []
  queries_tried : List Str := []
  cross_refs_fetched : List ℤ := []
  cross_refs_pending : List ℤ := []
  total_llm_calls : ℕ := 0
  total_embedding_calls : ℕ := 0
  total_latency_ms : ℕ := 0
  stop_reason : Option StopReason := none

/-- Add an article to the session map, returning whether it was new;
an existing entry is replaced only when the new similarity is strictly
higher (`RetrievalState.add_article`). -/
def RetrievalState.add_article (st : RetrievalState) (article : ArticleResult) :
    Bool × RetrievalState :=
  match pyDictGet st.articles article.article_number with
  | some existing =>
    if existing.similarity < article.similarity then
      (false, { st with articles := pyDictSet st.articles article.article_number article })
    else
      (false, st)
  | none =>
    (true, { st with articles := pyDictSet st.articles article.article_number article })

/-- All articles sorted by similarity, descending
(`RetrievalState.get_articles_list`). -/
def RetrievalState.get_articles_list (st : RetrievalState) : List ArticleResult :=
  List.insertionSort (fun a b => b.similarity ≤ a.similarity) (st.articles.map (·.2))

/-- Average similarity across all articles
(`RetrievalState.get_avg_similarity`). -/
def RetrievalState.get_avg_similarity (st : RetrievalState) : PyRat :=
  if st.articles.isEmpty then ⟨0, 1⟩
  else
    PyRat.divN (PyRat.sumList (st.articles.map (fun p => p.2.similarity))) st.articles.length

/-- Average similarity of the top-`k` articles
(`RetrievalState.get_top_k_similarity`). -/
def RetrievalState.get_top_k_similarity (st : RetrievalState) (k : ℕ) : PyRat :=
  let articles := st.get_articles_list
  if articles.length < k then st.get_avg_similarity
  else PyRat.divN (PyRat.sumList ((articles.take k).map (·.similarity))) k

/-! ## Coverage analyzer (`project/components/coverage_analyzer.py`)

The analyzer's configuration comes from `config/legal_areas.yaml`.  The
per-area entries are plain dictionaries read with `.get(key, default)`;
they are modelled by `AreaConfig` whose `Option` fields mirror possibly
missing YAML keys, resolved with the source's defaults at each use site.
The `required` key is attached by `get_required_areas`. -/

/-- Configuration dictionary of one legal area from `legal_areas.yaml`. -/
structure AreaConfig where
  name_en : Option String := none
  name_ar : Option String := none
  keywords_ar : List Str := []
  keywords_en : List Str := []
  min_similarity : Option PyRat := none
  min_articles : Option ℕ := none
  template_queries_ar : List Str := []
  conditional_on : Option String := none
  required : Bool := false

/-- Per-transaction-type requirement entry of `legal_areas.yaml`. -/
structure TxRequirements where
  required_areas : List String := []
  conditional_areas : List String := []

/-- The `legal_areas.yaml` content the analyzer loads at import time. -/
structure LegalAreasConfig where
  legal_areas : List (String × AreaConfig) := []
  transaction_requirements : List (String × TxRequirements) := []
  default_requirements : TxRequirements := {}

/-- Required legal areas for a transaction type
(`CoverageAnalyzer.get_required_areas`): areas named in the transaction's
`required_areas` are marked required, areas in `conditional_areas` are
required exactly when conditioned on `entity_involved` and an entity is
present, all other configured areas are omitted. -/
def get_required_areas (cfg : LegalAreasConfig) (transaction_type : Option String)
    (has_entity : Bool) : List (String × AreaConfig) :=
  let tx_config :=
    (transaction_type.bind (pyDictGet cfg.transaction_requirements)).getD
      cfg.default_requirements
  cfg.legal_areas.foldl
    (fun result p =>
      if p.1 ∈ tx_config.required_areas then
        result ++ [(p.1, { p.2 with required := true })]
      else if p.1 ∈ tx_config.conditional_areas then
        if p.2.conditional_on = some ("entity_involved") ∧ has_entity then
          result ++ [(p.1, { p.2 with required := true })]
        else
          result ++ [(p.1, { p.2 with required := false })]
      else result)
    []

/-- Articles whose combined lowercased bilingual text contains one of the
area's keywords (`CoverageAnalyzer._find_matching_articles`); each
article is appended at most once (the source breaks after the first
matching keyword). -/
def find_matching_articles (articles : List ArticleResult)
    (keywords_ar keywords_en : List Str) : List ArticleResult :=
  articles.filter (fun article =>
    let text_combined := pyLower (article.text_arabic ++ [' '] ++ article.text_english)
    keywords_ar.any (fun kw => strContains text_combined kw) ||
    keywords_en.any (fun kw => strContains text_combined (pyLower kw)))

/-- Python `max` over a non-empty float list (first maximal element). -/
def pyMaxList (l : List PyRat) : PyRat :=
  match l with
  | [] => ⟨0, 1⟩
  | h :: t => t.foldl (fun m x => if m < x then x else m) h

/-- Average similarity of a matching set
(`sum(similarities) / len(similarities) if similarities else 0.0`). -/
def pyAvgSimilarity (similarities : List PyRat) : PyRat :=
  if similarities.isEmpty then ⟨0, 1⟩
  else PyRat.divN (PyRat.sumList similarities) similarities.length

/-- The `covered` condition of `analyze_coverage`: matching-article
count at least the area's minimum (`.get("min_articles", 1)`) and
average similarity at least the area's minimum
(`.get("min_similarity", 0.5)`). -/
def areaCoveredCond (area_config : AreaConfig) (matching : List ArticleResult) : Prop :=
  area_config.min_articles.getD 1 ≤ matching.length ∧
  area_config.min_similarity.getD ⟨5, 10⟩ ≤
    pyAvgSimilarity (matching.map (·.similarity))

instance (area_config : AreaConfig) (matching : List ArticleResult) :
    Decidable (areaCoveredCond area_config matching) :=
  And.decidable

/-- The `CoverageStatus` computed for one area in
`CoverageAnalyzer.analyze_coverage`: `covered` when the matching-article
count reaches the area's minimum and the average similarity reaches the
area's minimum, `weak` when at least one article matches, `missing`
otherwise. -/
def areaCoverageStatus (area_id : String) (area_config : AreaConfig)
    (articles : List ArticleResult) : CoverageStatus :=
  let matching := find_matching_articles articles area_config.keywords_ar
    area_config.keywords_en
  let article_numbers := matching.map (·.article_number)
  let similarities := matching.map (·.similarity)
  let avg_sim := pyAvgSimilarity similarities
  let max_sim := if similarities.isEmpty then ⟨0, 1⟩ else pyMaxList similarities
  let status : AreaStatus :=
    if areaCoveredCond area_config matching then .covered
    else if 0 < matching.length then .weak
    else .missing
  { area_id := area_id
    area_name_en := area_config.name_en.getD area_id
    area_name_ar := area_config.name_ar.getD area_id
    required := area_config.required
    articles_found := article_numbers
    avg_similarity := avg_sim
    max_similarity := max_sim
    status := status }

/-- Side effect of `analyze_coverage` on the shared article objects: the
area id is appended to each matching article's `matched_legal_areas`
when absent. -/
def applyMatchedAreaUpdate (area_id : String) (area_config : AreaConfig)
    (articles : List ArticleResult) : List ArticleResult :=
  articles.map (fun article =>
    let text_combined := pyLower (article.text_arabic ++ [' '] ++ article.text_english)
    if area_config.keywords_ar.any (fun kw => strContains text_combined kw) ||
        area_config.keywords_en.any (fun kw => strContains text_combined (pyLower kw)) then
      if area_id ∈ article.matched_legal_areas then article
      else { article with matched_legal_areas := article.matched_legal_areas ++ [area_id] }
    else article)

/-- Coverage analysis (`CoverageAnalyzer.analyze_coverage`): returns the
area-id-keyed coverage map and the article list with the
`matched_legal_areas` mutation applied. -/
def analyze_coverage (required_areas : List (String × AreaConfig))
    (articles : List ArticleResult) :
    List (String × CoverageStatus) × List ArticleResult :=
  required_areas.foldl
    (fun acc p =>
      let status := areaCoverageStatus p.1 p.2 acc.2
      (acc.1 ++ [(p.1, status)], applyMatchedAreaUpdate p.1 p.2 acc.2))
    ([], articles)

/-- Overall coverage score (`CoverageAnalyzer.calculate_coverage_score`):
the fraction of required areas with status `covered`; `1.0` when no area
is required. -/
def calculate_coverage_score (coverage : List (String × CoverageStatus)) : PyRat :=
  let required_areas := (coverage.map (·.2)).filter (·.required)
  if required_areas.isEmpty then PyRat.ofInt 1
  else
    PyRat.divN
      (PyRat.ofInt ((required_areas.filter (fun s => s.status = AreaStatus.covered)).length))
      required_areas.length

/-- Threshold test on the coverage score
(`CoverageAnalyzer.is_coverage_sufficient`). -/
def is_coverage_sufficient (coverage : List (String × CoverageStatus))
    (threshold : PyRat) : Bool :=
  threshold ≤ calculate_coverage_score coverage

/-- Gap record built by `CoverageAnalyzer.identify_gaps`. -/
structure Gap where
  area_id : String
  area_name_ar : String
  area_name_en : String
  status : AreaStatus
  suggested_queries_ar : List Str
  keywords_ar : List Str
deriving DecidableEq

/-- Gaps in coverage (`CoverageAnalyzer.identify_gaps`): one record per
required area whose status is `missing` or `weak`, carrying the area's
template queries and keywords from the analyzer configuration. -/
def identify_gaps (analyzer_config : List (String × AreaConfig))
    (coverage : List (String × CoverageStatus)) : List Gap :=
  coverage.foldl
    (fun gaps p =>
      let status := p.2
      if status.required ∧ (status.status = AreaStatus.missing ∨
          status.status = AreaStatus.weak) then
        let area_config := (pyDictGet analyzer_config p.1).getD {}
        gaps ++ [{ area_id := p.1
                   area_name_ar := status.area_name_ar
                   area_name_en := status.area_name_en
                   status := status.status
                   suggested_queries_ar := area_config.template_queries_ar
                   keywords_ar := area_config.keywords_ar }]
      else gaps)
    []

/-- Simple status summary for logging
(`CoverageAnalyzer.get_coverage_summary`). -/
def get_coverage_summary (coverage : List (String × CoverageStatus)) :
    List (String × String) :=
  coverage.map (fun p => (p.1, p.2.status.value))

/-! ## Cross-reference expander (`project/components/crossref_expander.py`)

The regex layer (`CROSS_REFERENCE_PATTERNS` driving
`extract_references`) is taken as a parameter `extractRefs`: a function
from an article text and the optional source article number to the list
of referenced article numbers.  Every property proved below holds for
every such extractor, in particular for the source's regex-based one. -/

/-- Shape of an extractor standing for
`CrossRefExpander.extract_references`. -/
abbrev RefExtractor := Str → Option ℤ → List ℤ

/-- Sanity filter on an extracted reference
(`CrossRefExpander._is_valid_reference`): no self-references (the check
is skipped when the source number is 0, which is falsy in Python), the
number must be at least 1 and at most 100000. -/
def is_valid_reference (ref_num : ℤ) (source_article_number : Option ℤ) : Bool :=
  if (match source_article_number with
      | some s => decide (s ≠ 0) && decide (ref_num = s)
      | none => false) then false
  else if ref_num < 1 then false
  else if 100000 < ref_num then false
  else true

/-- Referenced article numbers that still need fetching
(`CrossRefExpander.get_unique_references`): the union of all extracted
references minus everything already fetched, as a duplicate-free list. -/
def get_unique_references (extractRefs : RefExtractor) (articles : List ArticleResult)
    (already_fetched : List ℤ) : List ℤ :=
  articles.foldl
    (fun to_fetch article =>
      (extractRefs article.text_arabic (some article.article_number)).foldl
        (fun tf ref =>
          if ref ∈ already_fetched ∨ ref ∈ tf then tf else tf ++ [ref])
        to_fetch)
    []

/-- Raw article record returned by the store (the dict keys the
expander and the search path read). -/
structure StoreArticle where
  article_number : ℤ
  text_arabic : Str := []
  text_english : Str := []
  hierarchy_path : List (String × String) := []
  similarity : PyRat := ⟨0, 1⟩
deriving DecidableEq

/-- Fetch articles by number (`CrossRefExpander.fetch_referenced_articles`);
`none` from the store models both a missing article and a raised
exception — either way the number is skipped. -/
def fetch_referenced_articles (getArticle : ℤ → Option StoreArticle)
    (article_numbers : List ℤ) : List StoreArticle :=
  article_numbers.foldl
    (fun fetched art_num =>
      match getArticle art_num with
      | some article => fetched ++ [article]
      | none => fetched)
    []

/-- Wrap a fetched article dict as an `ArticleResult`
(`CrossRefExpander.create_article_result`): cross-reference flag set,
synthetic similarity 0.8, found-by-query recording the citing article. -/
def create_article_result (article_dict : StoreArticle) (referenced_by : ℤ)
    (iteration : ℕ) : ArticleResult :=
  { article_number := article_dict.article_number
    text_arabic := article_dict.text_arabic
    text_english := article_dict.text_english
    hierarchy_path := article_dict.hierarchy_path
    found_by_query := ("cross_reference_from_" ++ toString referenced_by).data
    found_in_iteration := iteration
    similarity := ⟨8, 10⟩
    is_cross_reference := true
    referenced_by := some referenced_by }

/-- First-writer-wins map from a reference to the first article citing it
(the `ref_sources` dict of `expand_with_references`). -/
def buildRefSources (extractRefs : RefExtractor) (articles : List ArticleResult)
    (to_fetch_list : List ℤ) : List (ℤ × ℤ) :=
  articles.foldl
    (fun ref_sources article =>
      (extractRefs article.text_arabic (some article.article_number)).foldl
        (fun rs ref =>
          if ref ∈ to_fetch_list ∧ (pyDictGet rs ref).isNone then
            rs ++ [(ref, article.article_number)]
          else rs)
        ref_sources)
    []

/-- Expand the article set by fetching cross-referenced articles
(`CrossRefExpander.expand_with_references`): the candidate set is capped
at `max_refs`, keeping the numerically smallest candidates (ascending
sort, then truncation). -/
def expand_with_references (extractRefs : RefExtractor)
    (getArticle : ℤ → Option StoreArticle) (articles : List ArticleResult)
    (already_fetched : List ℤ) (iteration : ℕ) (max_refs : ℕ) :
    List ArticleResult × List ℤ :=
  let to_fetch := get_unique_references extractRefs articles already_fetched
  if to_fetch.isEmpty then ([], [])
  else
    let to_fetch_list := (List.insertionSort (fun a b => a ≤ b) to_fetch).take max_refs
    let ref_sources := buildRefSources extractRefs articles to_fetch_list
    let fetched_dicts := fetch_referenced_articles getArticle to_fetch_list
    let new_articles := fetched_dicts.map (fun article_dict =>
      create_article_result article_dict
        ((pyDictGet ref_sources article_dict.article_number).getD 0) iteration)
    (new_articles, to_fetch_list)

/-! ## HyDE generator (`project/components/hyde_generator.py`)

The LLM completion is an oracle: `hydeOne q` / `hydeMany q n` give the
model response for the single/multiple hypothetical prompt built from
`q` (and `n`); `none` models a raised exception.  Latencies are not
modelled (every claim is latency-independent). -/

/-- The structural delimiter the parser splits on. -/
def hydeDelim : Str := "المادة (هـ):".data

/-- The prefix re-added to each parsed piece (the delimiter plus one
space). -/
def hydeReaddPrefixStr : Str := hydeDelim ++ [' ']

/-- The marker tested by `startswith` checks. -/
def hydeMarker : Str := "المادة".data

/-- First parsing pass of `_parse_multiple_hypotheticals`: pieces of the
delimiter split, stripped, empties dropped, the delimiter prefix
re-added, stopping once `expected_count` pieces are collected. -/
def hydeSplitLoop (expected_count : ℕ) : List Str → List Str → List Str
  | [], hypotheticals => hypotheticals
  | part :: rest, hypotheticals =>
    let part := pyStrip part
    if part.isEmpty then hydeSplitLoop expected_count rest hypotheticals
    else
      let hypotheticals := hypotheticals ++ [hydeReaddPrefixStr ++ part]
      if expected_count ≤ hypotheticals.length then hypotheticals
      else hydeSplitLoop expected_count rest hypotheticals

/-- Blank-line fallback of `_parse_multiple_hypotheticals`: split on
double newlines, keep non-empty parts not already collected (exact
membership, tested before the marker prefix is added), stop at
`expected_count`. -/
def hydeBlankLoop (expected_count : ℕ) : List Str → List Str → List Str
  | [], hypotheticals => hypotheticals
  | part :: rest, hypotheticals =>
    let part := pyStrip part
    if ¬ part.isEmpty ∧ part ∉ hypotheticals then
      let part := if hydeMarker.isPrefixOf part then part
        else hydeReaddPrefixStr ++ part
      let hypotheticals := hypotheticals ++ [part]
      if expected_count ≤ hypotheticals.length then hypotheticals
      else hydeBlankLoop expected_count rest hypotheticals
    else hydeBlankLoop expected_count rest hypotheticals

/-- Parse multiple hypotheticals from an LLM response
(`HydeGenerator._parse_multiple_hypotheticals`): delimiter split, then
the blank-line fallback when too few pieces were recovered, then the
whole stripped response as a last resort, truncated to
`expected_count`. -/
def parse_multiple_hypotheticals (response : Str) (expected_count : ℕ) : List Str :=
  let hypotheticals := hydeSplitLoop expected_count (pySplit response hydeDelim) []
  let hypotheticals :=
    if hypotheticals.length < expected_count then
      hydeBlankLoop expected_count (pySplit response ('\n' :: ['\n'])) hypotheticals
    else hypotheticals
  let hypotheticals :=
    if hypotheticals.length = 0 ∧ ¬ (pyStrip response).isEmpty then
      [hydeReaddPrefixStr ++ pyStrip response]
    else hypotheticals
  hypotheticals.take expected_count

/-- Generate a single hypothetical article
(`HydeGenerator.generate_hypothetical`): the stripped response, prefixed
with the marker when absent; the empty string on failure. -/
def generate_hypothetical (hydeOne : Str → Option Str) (question : Str) : Str :=
  match hydeOne question with
  | none => []
  | some response =>
    let hypothetical := pyStrip response
    if hydeMarker.isPrefixOf hypothetical then hypothetical
    else hydeReaddPrefixStr ++ hypothetical

/-- Generate multiple hypothetical articles
(`HydeGenerator.generate_multiple_hypotheticals`): the parsed pieces of
one model response; the empty list on failure.  The returned list is
passed on exactly as parsed — no deduplication happens here. -/
def generate_multiple_hypotheticals (hydeMany : Str → ℕ → Option Str)
    (question : Str) (num_hypotheticals : ℕ) : List Str :=
  match hydeMany question num_hypotheticals with
  | none => []
  | some response => parse_multiple_hypotheticals response num_hypotheticals

/-- A decomposed legal issue, as consumed by the retrieval loop
(`issue.get("issue_id", "unknown")`, `issue.get("primary_question", "")`,
`issue.get("search_queries_ar", [])`, plus the category recorded by the
decomposer). -/
structure Issue where
  issue_id : String := "unknown"
  category : String := ""
  primary_question : Str := []
  search_queries_ar : List Str := []
  priority : ℕ := 1
deriving DecidableEq

/-- Deduplication loop at the end of `generate_for_issue`: keep the
first hypothetical for each 100-character prefix key. -/
def dedupByPrefixKey : List Str → List Str → List Str → List Str
  | [], _, unique_hypotheticals => unique_hypotheticals
  | h :: rest, seen, unique_hypotheticals =>
    let key := h.take 100
    if key ∈ seen then dedupByPrefixKey rest seen unique_hypotheticals
    else dedupByPrefixKey rest (seen ++ [key]) (unique_hypotheticals ++ [h])

/-- Generate hypotheticals for an issue
(`HydeGenerator.generate_for_issue`): `generate_multiple_hypotheticals`
on the primary question, `generate_hypothetical` on up to two search
queries (skipping empties and the primary question), then deduplication
by the 100-character prefix key. -/
def generate_for_issue (hydeMany : Str → ℕ → Option Str)
    (hydeOne : Str → Option Str) (issue : Issue) (num_hypotheticals : ℕ) : List Str :=
  let all_hypotheticals :=
    if ¬ issue.primary_question.isEmpty then
      generate_multiple_hypotheticals hydeMany issue.primary_question num_hypotheticals
    else []
  let all_hypotheticals :=
    (issue.search_queries_ar.take 2).foldl
      (fun acc query =>
        if ¬ query.isEmpty ∧ query ≠ issue.primary_question then
          let hypo := generate_hypothetical hydeOne query
          if ¬ hypo.isEmpty then acc ++ [hypo] else acc
        else acc)
      all_hypotheticals
  dedupByPrefixKey all_hypotheticals [] []

/-! ## Retrieval orchestrator (`project/components/retrieval_agent.py`) -/

/-- External collaborators of one retrieval session.  `search` is the
composite of `llm.get_embedding` and `supabase.semantic_search` for a
query text (the two calls sit in one `try` block and any failure yields
the same empty-result path, so one oracle models both); `none` models a
raised exception or, for `getArticle`, a missing article. -/
structure RetrievalEnv where
  hydeMany : Str → ℕ → Option Str
  hydeOne : Str → Option Str
  search : Str → Option (List StoreArticle)
  getArticle : ℤ → Option StoreArticle
  extractRefs : RefExtractor
  iterLatency : ℕ → ℕ

/-- Keyword arguments passed to `ArticleResult(...)` inside
`_search_with_embedding` (retrieval_agent.py lines 365–375). -/
def searchCallKwargs : List String :=
  ["article_number", "text_arabic", "text_english", "hierarchy_path",
   "citation", "law_id", "found_by_query", "found_in_iteration", "similarity"]

/-- Parameter names accepted by the generated `ArticleResult.__init__`
(the dataclass fields, retrieval_state.py lines 81–99). -/
def articleResultFields : List String :=
  ["article_number", "text_arabic", "text_english", "hierarchy_path",
   "found_by_query", "found_in_iteration", "similarity",
   "is_cross_reference", "referenced_by", "matched_legal_areas"]

/-- Whether the `ArticleResult(...)` call in `_search_with_embedding`
is accepted by the dataclass constructor; an unexpected keyword argument
raises `TypeError`. -/
def searchResultCallOk : Bool :=
  searchCallKwargs.all (fun kw => articleResultFields.contains kw)

/-- The `ArticleResult` that `_search_with_embedding` attempts to build
from a search hit (the fields the dataclass would accept). -/
def mkSearchArticleResult (article : StoreArticle) (query_text : Str)
    (iteration : ℕ) : ArticleResult :=
  { article_number := article.article_number
    text_arabic := article.text_arabic
    text_english := article.text_english
    hierarchy_path := article.hierarchy_path
    found_by_query := query_text.take 100
    found_in_iteration := iteration
    similarity := article.similarity }

/-- Hit-processing loop of `_search_with_embedding`: each hit is wrapped
as an `ArticleResult`, merged via `add_article`, and its number and
similarity appended to the query log.  When the constructor call is
invalid (`searchResultCallOk = false`) the first hit raises `TypeError`
(`.error`), before any state mutation. -/
def searchHitsLoop (query_text : Str) (iteration : ℕ) :
    List StoreArticle → RetrievalState → QueryLog → List ArticleResult →
    Except Unit (List ArticleResult × RetrievalState × QueryLog)
  | [], st, ql, results => .ok (results, st, ql)
  | article :: rest, st, ql, results =>
    if searchResultCallOk then
      let article_result := mkSearchArticleResult article query_text iteration
      let r := st.add_article article_result
      let results := if r.1 then results ++ [article_result] else results
      let ql := { ql with
        articles_found := ql.articles_found ++ [article_result.article_number]
        similarities := ql.similarities ++ [article_result.similarity] }
      searchHitsLoop query_text iteration rest r.2 ql results
    else .error ()

/-- Semantic search plus state update
(`RetrievalAgent._search_with_embedding`): embed and search (one oracle
call), convert each hit and merge it; every exception is caught and
turns the search into an empty result with the state unchanged (no state
is mutated before the possible `TypeError`, which fires on the first
hit or never). -/
def search_with_embedding (env : RetrievalEnv) (query_text : Str)
    (st : RetrievalState) (query_log : QueryLog) (iteration : ℕ) :
    List ArticleResult × RetrievalState × QueryLog :=
  match env.search query_text with
  | none => ([], st, query_log)
  | some articles =>
    match searchHitsLoop query_text iteration articles st query_log [] with
    | .ok r => r
    | .error _ => ([], st, query_log)

/-- HyDE probe searches of one issue in `_execute_broad_retrieval`. -/
def broadHydeSearches (env : RetrievalEnv) (issue : Issue)
    (hypotheticals : List Str) (acc : RetrievalState × IterationLog) :
    RetrievalState × IterationLog :=
  hypotheticals.enum.foldl
    (fun acc p =>
      let query_log : QueryLog :=
        { query_id := issue.issue_id ++ "_hyde_" ++ toString p.1
          query_type := "hyde"
          query_text := issue.primary_question
          query_language := "arabic"
          hypothetical_generated := some p.2 }
      let r := search_with_embedding env p.2 acc.1 query_log acc.2.iteration_number
      ({ r.2.1 with total_embedding_calls := r.2.1.total_embedding_calls + 1 },
       { acc.2 with
          queries := acc.2.queries ++ [r.2.2]
          embedding_calls := acc.2.embedding_calls + 1 }))
    acc

/-- Direct literal-query searches of one issue in
`_execute_broad_retrieval` (up to two queries, skipping strings already
tried in this session). -/
def broadDirectSearches (env : RetrievalEnv) (issue : Issue)
    (acc : RetrievalState × IterationLog) : RetrievalState × IterationLog :=
  (issue.search_queries_ar.take 2).foldl
    (fun acc query =>
      if query ∈ acc.1.queries_tried then acc
      else
        let st := { acc.1 with queries_tried := acc.1.queries_tried ++ [query] }
        let query_log : QueryLog :=
          { query_id := issue.issue_id ++ "_direct_" ++ toString acc.2.queries.length
            query_type := "direct"
            query_text := query
            query_language := "arabic" }
        let r := search_with_embedding env query st query_log acc.2.iteration_number
        ({ r.2.1 with total_embedding_calls := r.2.1.total_embedding_calls + 1 },
         { acc.2 with
            queries := acc.2.queries ++ [r.2.2]
            embedding_calls := acc.2.embedding_calls + 1 }))
    acc

/-- Broad retrieval with HyDE for all issues
(`RetrievalAgent._execute_broad_retrieval`); afterwards the log's
retrieved and new article lists are both the whole key set (all articles
count as new in the first iteration). -/
def execute_broad_retrieval (env : RetrievalEnv) (cfg : RetrievalConfig)
    (issues : List Issue) (st : RetrievalState) (iteration_log : IterationLog) :
    RetrievalState × IterationLog :=
  let acc := issues.foldl
    (fun acc issue =>
      let acc :=
        if cfg.hyde_enabled then
          let hypotheticals :=
            generate_for_issue env.hydeMany env.hydeOne issue cfg.hyde_num_hypotheticals
          let acc :=
            ({ acc.1 with total_llm_calls := acc.1.total_llm_calls + 1 },
             { acc.2 with llm_calls := acc.2.llm_calls + 1 })
          broadHydeSearches env issue hypotheticals acc
        else acc
      broadDirectSearches env issue acc)
    (st, iteration_log)
  (acc.1,
   { acc.2 with
      articles_retrieved := acc.1.articles.map (·.1)
      articles_new := acc.1.articles.map (·.1) })

/-- Gap-query searches of one gap in `_execute_gap_filling` (up to two
template queries, each preceded by one HyDE generation; no search runs
when HyDE is disabled or the hypothetical comes back empty). -/
def gapQuerySearches (env : RetrievalEnv) (cfg : RetrievalConfig) (gap : Gap)
    (acc : RetrievalState × IterationLog) : RetrievalState × IterationLog :=
  (gap.suggested_queries_ar.take 2).foldl
    (fun acc query =>
      if query ∈ acc.1.queries_tried then acc
      else
        let st := { acc.1 with queries_tried := acc.1.queries_tried ++ [query] }
        if cfg.hyde_enabled then
          let hypothetical := generate_hypothetical env.hydeOne query
          let st := { st with total_llm_calls := st.total_llm_calls + 1 }
          let iteration_log := { acc.2 with llm_calls := acc.2.llm_calls + 1 }
          if ¬ hypothetical.isEmpty then
            let query_log : QueryLog :=
              { query_id := "gap_" ++ gap.area_id ++ "_" ++ toString iteration_log.queries.length
                query_type := "hyde"
                query_text := query
                query_language := "arabic"
                hypothetical_generated := some hypothetical }
            let r := search_with_embedding env hypothetical st query_log
              iteration_log.iteration_number
            ({ r.2.1 with total_embedding_calls := r.2.1.total_embedding_calls + 1 },
             { iteration_log with
                queries := iteration_log.queries ++ [r.2.2]
                embedding_calls := iteration_log.embedding_calls + 1 })
          else (st, iteration_log)
        else (st, acc.2))
    acc

/-- Targeted retrieval to fill coverage gaps
(`RetrievalAgent._execute_gap_filling`). -/
def execute_gap_filling (env : RetrievalEnv) (cfg : RetrievalConfig)
    (gaps : List Gap) (st : RetrievalState) (iteration_log : IterationLog) :
    RetrievalState × IterationLog :=
  let articles_before := st.articles.map (·.1)
  let acc := gaps.foldl (fun acc gap => gapQuerySearches env cfg gap acc)
    (st, iteration_log)
  let articles_after := acc.1.articles.map (·.1)
  (acc.1,
   { acc.2 with
      articles_retrieved := articles_after
      articles_new := articles_after.filter (fun n => n ∉ articles_before) })

/-- Cross-reference expansion
(`RetrievalAgent._execute_reference_expansion`): expand against the full
current article set with a cap of 10 fetches, merge every new article
via `add_article`, record the fetched numbers. -/
def execute_reference_expansion (env : RetrievalEnv) (st : RetrievalState)
    (iteration_log : IterationLog) : RetrievalState × IterationLog :=
  let articles_before := st.articles.map (·.1)
  let already_fetched :=
    articles_before ++ st.cross_refs_fetched.filter (fun n => n ∉ articles_before)
  let r := expand_with_references env.extractRefs env.getArticle
    (st.articles.map (·.2)) already_fetched iteration_log.iteration_number 10
  let st := r.1.foldl (fun s article => (s.add_article article).2) st
  let st := { st with
    cross_refs_fetched :=
      st.cross_refs_fetched ++ r.2.filter (fun n => n ∉ st.cross_refs_fetched) }
  let articles_after := st.articles.map (·.1)
  (st,
   { iteration_log with
      articles_retrieved := articles_after
      articles_new := articles_after.filter (fun n => n ∉ articles_before)
      cross_refs_found := r.2 })

/-- Stop-condition check (`RetrievalAgent._check_end_conditions`), in the
source's evaluation order; the second component of the no-stop result is
the source's arbitrary placeholder (`# Won't be used`). -/
def check_end_conditions (cfg : RetrievalConfig) (st : RetrievalState)
    (coverage : List (String × CoverageStatus)) : Bool × StopReason :=
  if cfg.max_iterations ≤ st.iteration then (true, .max_iterations_reached)
  else if cfg.max_articles ≤ st.articles.length then (true, .max_articles_reached)
  else if cfg.max_latency_ms ≤ st.total_latency_ms then (true, .max_latency_reached)
  else if cfg.enable_coverage_check ∧
      cfg.coverage_threshold ≤ calculate_coverage_score coverage then
    (true, .coverage_threshold_met)
  else if cfg.min_articles ≤ st.articles.length ∧
      cfg.confidence_threshold ≤ st.get_avg_similarity ∧
      (⟨65, 100⟩ : PyRat) ≤ st.get_top_k_similarity 3 then
    (true, .confidence_threshold_met)
  else
    match st.iteration_logs.getLast? with
    | some last_iteration =>
      if 2 ≤ st.iteration ∧ last_iteration.articles_new.length ≤ 1 then
        (true, .diminishing_returns)
      else (false, .coverage_threshold_met)
    | none => (false, .coverage_threshold_met)

/-- Write the article list mutated by `analyze_coverage` back onto the
session's article map (in Python the map holds the very objects the
analyzer mutates; the list is positionally aligned with the map). -/
def writeBackArticles (st : RetrievalState) (articles : List ArticleResult) :
    RetrievalState :=
  { st with articles := (st.articles.map (·.1)).zip articles }

/-- One pass of the main agentic loop in `RetrievalAgent.retrieve`:
increment the iteration counter, pick the phase from the counter,
compute coverage-before, run the phase, add the iteration latency,
recompute coverage, append the iteration log.  Returns the updated state
and the freshly computed coverage (the `coverage_after` fed to the
stop-condition check). -/
def iteration_step (env : RetrievalEnv) (cfg : RetrievalConfig)
    (analyzer_config : List (String × AreaConfig))
    (required_areas : List (String × AreaConfig)) (issues : List Issue)
    (st : RetrievalState) : RetrievalState × List (String × CoverageStatus) :=
  let st := { st with iteration := st.iteration + 1 }
  let purpose := if st.iteration = 1 then IterationPurpose.broad_retrieval
    else if st.iteration = 2 then IterationPurpose.gap_filling
    else IterationPurpose.reference_expansion
  let iteration_log : IterationLog :=
    { iteration_number := st.iteration, purpose := purpose }
  let current_articles := st.articles.map (·.2)
  let r0 :=
    if ¬ current_articles.isEmpty then
      let r := analyze_coverage required_areas current_articles
      ({ iteration_log with coverage_before := get_coverage_summary r.1 },
       writeBackArticles st r.2)
    else
      ({ iteration_log with
          coverage_before := required_areas.map (fun p => (p.1, "missing")) }, st)
  let iteration_log := r0.1
  let st := r0.2
  let r1 : RetrievalState × IterationLog :=
    match purpose with
    | .broad_retrieval => execute_broad_retrieval env cfg issues st iteration_log
    | .gap_filling =>
      let r := analyze_coverage required_areas (st.articles.map (fun p => p.2))
      let st := writeBackArticles st r.2
      let gaps := identify_gaps analyzer_config r.1
      let iteration_log :=
        { iteration_log with gaps_identified := gaps.map (fun g => g.area_id) }
      if ¬ gaps.isEmpty then execute_gap_filling env cfg gaps st iteration_log
      else (st, iteration_log)
    | .reference_expansion =>
      if cfg.enable_cross_references then
        execute_reference_expansion env st iteration_log
      else (st, iteration_log)
  let st := r1.1
  let iteration_log := { r1.2 with latency_ms := env.iterLatency st.iteration }
  let st := { st with total_latency_ms := st.total_latency_ms + iteration_log.latency_ms }
  let r2 := analyze_coverage required_areas (st.articles.map (·.2))
  let st := writeBackArticles st r2.2
  let coverage_after := r2.1
  let iteration_log := { iteration_log with
    coverage_after := get_coverage_summary coverage_after }
  let st := { st with
    coverage := coverage_after
    iteration_logs := st.iteration_logs ++ [iteration_log] }
  (st, coverage_after)

/-- The `while True` loop of `RetrievalAgent.retrieve`, written with
explicit fuel to keep every definition structurally recursive; `retrieve`
supplies `max_iterations + 1` units and the termination theorem (claim
C6) proves that this fuel is never exhausted and that any larger amount
gives the same result, so the fuel is a proof device, not a semantic
bound of its own. -/
def retrieve_loop (env : RetrievalEnv) (cfg : RetrievalConfig)
    (analyzer_config : List (String × AreaConfig))
    (required_areas : List (String × AreaConfig)) (issues : List Issue) :
    ℕ → RetrievalState → RetrievalState
  | 0, st => st
  | fuel + 1, st =>
    let r := iteration_step env cfg analyzer_config required_areas issues st
    let c := check_end_conditions cfg r.1 r.2
    if c.1 then { r.1 with stop_reason := some c.2 }
    else retrieve_loop env cfg analyzer_config required_areas issues fuel r.1

/-- The slice of the legal brief the retrieval entry point reads:
`legal_brief["case_summary"]["transaction_type"]` and
`legal_brief["entity_information"]["company_name_ar"]`. -/
structure LegalBrief where
  transaction_type : Option String := none
  company_name_ar : Option String := none
deriving DecidableEq

/-- USD cost estimate (`RetrievalAgent._estimate_cost`): 0.001 per LLM
call plus 0.0001 per embedding call. -/
def estimate_cost (st : RetrievalState) : PyRat :=
  PyRat.add (PyRat.mul (PyRat.ofInt (st.total_llm_calls : ℤ)) ⟨1, 1000⟩)
    (PyRat.mul (PyRat.ofInt (st.total_embedding_calls : ℤ)) ⟨1, 10000⟩)

/-- One row of the artifact's `final_articles` projection (truncated
texts). -/
structure FinalArticleRecord where
  article_number : ℤ
  text_arabic : Str
  text_english : Str
  similarity : PyRat
  found_in_iteration : ℕ
  is_cross_reference : Bool
  matched_legal_areas : List String
deriving DecidableEq

/-- One row of the artifact's `final_coverage` projection. -/
structure FinalCoverageRecord where
  status : String
  articles : List ℤ
  avg_similarity : PyRat
  required : Bool
deriving DecidableEq

/-- Complete evaluation artifact for a retrieval session
(`RetrievalEvalArtifact`).  The random `artifact_id`, the wall-clock
`timestamp` and the downstream `verdict` fields (set only after
synthesis) are not modelled. -/
structure RetrievalEvalArtifact where
  application_id : String
  legal_brief : LegalBrief
  decomposed_issues : List Issue
  config : RetrievalConfig
  iterations : List IterationLog
  final_articles : List FinalArticleRecord
  final_coverage : List (String × FinalCoverageRecord)
  stop_reason : String
  stop_iteration : ℕ
  total_iterations : ℕ
  total_articles : ℕ
  total_llm_calls : ℕ
  total_embedding_calls : ℕ
  total_latency_ms : ℕ
  avg_similarity : PyRat
  top_3_similarity : PyRat
  coverage_score : PyRat
  estimated_cost_usd : PyRat

/-- Build the evaluation artifact from the final state
(`RetrievalAgent._build_artifact`). -/
def build_artifact (cfg : RetrievalConfig) (st : RetrievalState)
    (legal_brief : LegalBrief) (issues : List Issue) : RetrievalEvalArtifact :=
  { application_id := st.application_id
    legal_brief := legal_brief
    decomposed_issues := issues
    config := cfg
    iterations := st.iteration_logs
    final_articles := st.get_articles_list.map (fun a =>
      { article_number := a.article_number
        text_arabic := a.text_arabic.take 500
        text_english := a.text_english.take 500
        similarity := a.similarity
        found_in_iteration := a.found_in_iteration
        is_cross_reference := a.is_cross_reference
        matched_legal_areas := a.matched_legal_areas })
    final_coverage := st.coverage.map (fun p =>
      (p.1,
       { status := p.2.status.value
         articles := p.2.articles_found
         avg_similarity := p.2.avg_similarity
         required := p.2.required }))
    stop_reason := (st.stop_reason.map StopReason.value).getD ("unknown")
    stop_iteration := st.iteration
    total_iterations := st.iteration
    total_articles := st.articles.length
    total_llm_calls := st.total_llm_calls
    total_embedding_calls := st.total_embedding_calls
    total_latency_ms := st.total_latency_ms
    avg_similarity := st.get_avg_similarity
    top_3_similarity := st.get_top_k_similarity 3
    coverage_score := calculate_coverage_score st.coverage
    estimated_cost_usd := estimate_cost st }

/-- Whether the case involves an entity:
`bool(legal_brief.get("entity_information", {}).get("company_name_ar"))`. -/
def legalBriefHasEntity (legal_brief : LegalBrief) : Bool :=
  match legal_brief.company_name_ar with
  | some s => ¬ s.isEmpty
  | none => false

/-- Main retrieval entry point (`RetrievalAgent.retrieve`): derive the
required areas from the brief, run the agentic loop from a fresh state,
return the article map's values together with the evaluation artifact.
The returned article list is `list(state.articles.values())`, i.e. the
map in insertion order — not `get_articles_list()`. -/
def retrieve (env : RetrievalEnv) (cfg : RetrievalConfig)
    (areas_config : LegalAreasConfig) (issues : List Issue)
    (legal_brief : LegalBrief) (application_id : String) :
    List ArticleResult × RetrievalEvalArtifact :=
  let required_areas := get_required_areas areas_config
    legal_brief.transaction_type (legalBriefHasEntity legal_brief)
  let st : RetrievalState := { application_id := application_id }
  let final := retrieve_loop env cfg areas_config.legal_areas required_areas
    issues (cfg.max_iterations + 1) st
  (final.articles.map (fun p => p.2), build_artifact cfg final legal_brief issues)

/-! ## Helper lemmas on the dictionary model -/

/-- Number of entries of a dictionary carrying a given key. -/
def countKey {α β : Type} [DecidableEq α] (d : List (α × β)) (k : α) : ℕ :=
  (d.filter (fun p => p.1 = k)).length

theorem pyDictGet_pyDictSet_self {α β : Type} [DecidableEq α]
    (d : List (α × β)) (k : α) (v : β) :
    pyDictGet (pyDictSet d k v) k = some v := by
  induction d with
  | nil => simp [pyDictSet, pyDictGet]
  | cons p rest ih =>
    by_cases h : p.1 = k
    · simp [pyDictSet, pyDictGet, h]
    · simp [pyDictSet, pyDictGet, h, ih]

theorem countKey_pyDictSet_absent {α β : Type} [DecidableEq α]
    (d : List (α × β)) (k : α) (v : β) (h : pyDictGet d k = none) :
    countKey (pyDictSet d k v) k = 1 := by
  induction d with
  | nil => simp [pyDictSet, countKey]
  | cons p rest ih =>
    by_cases hp : p.1 = k
    · simp [pyDictGet, hp] at h
    · simp only [pyDictGet, hp, if_false] at h
      simp [pyDictSet, countKey, hp, ih h]
      simpa [countKey] using ih h

theorem countKey_pyDictSet_present {α β : Type} [DecidableEq α]
    (d : List (α × β)) (k : α) (v v₀ : β) (h : pyDictGet d k = some v₀) :
    countKey (pyDictSet d k v) k = countKey d k := by
  induction d with
  | nil => simp [pyDictGet] at h
  | cons p rest ih =>
    by_cases hp : p.1 = k
    · simp [pyDictSet, countKey, hp]
    · simp only [pyDictGet, hp, if_false] at h
      simp [pyDictSet, countKey, hp, ih h]
      simpa [countKey] using ih h

/-! ## Claim C5 -/

theorem check_fires_at_max_iterations (cfg : RetrievalConfig)
    (st : RetrievalState) (coverage : List (String × CoverageStatus))
    (h : cfg.max_iterations ≤ st.iteration) :
    check_end_conditions cfg st coverage = (true, StopReason.max_iterations_reached) := by
  unfold check_end_conditions
  rw [if_pos h]

/-- C5: for every session state satisfying both the iteration-cap
condition (`iteration ≥ max_iterations`) and the coverage condition
(`coverage score ≥ coverage_threshold`), `_check_end_conditions` reports
a stop with reason `MAX_ITERATIONS_REACHED` — the iteration cap is
checked first. -/
theorem C5_stop_priority_max_iterations_first (cfg : RetrievalConfig)
    (st : RetrievalState) (coverage : List (String × CoverageStatus))
    (hiter : cfg.max_iterations ≤ st.iteration)
    (hcov : cfg.coverage_threshold ≤ calculate_coverage_score coverage) :
    check_end_conditions cfg st coverage = (true, StopReason.max_iterations_reached) :=
  check_fires_at_max_iterations cfg st coverage hiter

/-- State used by the C5 witness: iteration counter already at the
default cap. -/
def c5State : RetrievalState := { application_id := "w5", iteration := 3 }

theorem C5_stop_priority_witness :
    ({} : RetrievalConfig).max_iterations ≤ c5State.iteration ∧
    ({} : RetrievalConfig).coverage_threshold ≤ calculate_coverage_score [] ∧
    check_end_conditions {} c5State [] = (true, StopReason.max_iterations_reached) :=
  ⟨by decide, by decide,
   C5_stop_priority_max_iterations_first {} c5State [] (by decide) (by decide)⟩

/-! ## Claim C7 -/

theorem pyRatDiv_unit_bounds (c n : ℕ) (hn : 0 < n) (hc : c ≤ n) :
    (0 : ℚ) ≤ (PyRat.divN (PyRat.ofInt (c : ℤ)) n).toRat ∧
    (PyRat.divN (PyRat.ofInt (c : ℤ)) n).toRat ≤ 1 := by
  have hnQ : (0 : ℚ) < ((1 * n : ℕ) : ℚ) := by
    have : (0 : ℕ) < 1 * n := by omega
    exact_mod_cast this
  have hval : PyRat.divN (PyRat.ofInt (c : ℤ)) n = ⟨(c : ℤ), 1 * n⟩ := rfl
  rw [hval]
  constructor
  · unfold PyRat.toRat
    apply div_nonneg
    · positivity
    · positivity
  · unfold PyRat.toRat
    rw [div_le_one hnQ]
    show ((c : ℤ) : ℚ) ≤ ((1 * n : ℕ) : ℚ)
    have : c ≤ 1 * n := by omega
    exact_mod_cast this

/-- C7: `calculate_coverage_score` always returns a value in [0, 1]
(read through the exact-fraction interpretation), and returns exactly
1.0 whenever the coverage map has no entry marked required. -/
theorem C7_coverage_score_bounds (coverage : List (String × CoverageStatus)) :
    (0 : ℚ) ≤ (calculate_coverage_score coverage).toRat ∧
    (calculate_coverage_score coverage).toRat ≤ 1 ∧
    ((∀ p ∈ coverage, p.2.required = false) →
      calculate_coverage_score coverage = PyRat.ofInt 1) := by
  rcases hcase : (coverage.map (·.2)).filter (·.required) with _ | ⟨a, t⟩
  · have hscore : calculate_coverage_score coverage = PyRat.ofInt 1 := by
      unfold calculate_coverage_score
      rw [hcase]
      rfl
    refine ⟨?_, ?_, fun _ => hscore⟩ <;>
      simp [hscore, PyRat.ofInt, PyRat.toRat]
  · have hscore : calculate_coverage_score coverage =
        PyRat.divN
          (PyRat.ofInt (((a :: t).filter (fun s => s.status = AreaStatus.covered)).length))
          (a :: t).length := by
      unfold calculate_coverage_score
      rw [hcase]
      rfl
    have hbounds := pyRatDiv_unit_bounds
      ((a :: t).filter (fun s => s.status = AreaStatus.covered)).length
      (a :: t).length (by simp) (List.length_filter_le _ _)
    refine ⟨by rw [hscore]; exact hbounds.1, by rw [hscore]; exact hbounds.2,
      fun hnone => ?_⟩
    exfalso
    have hnil : (coverage.map (·.2)).filter (·.required) = [] := by
      rw [List.filter_eq_nil]
      intro s hs
      rcases List.mem_map.mp hs with ⟨p, hp, rfl⟩
      simp [hnone p hp]
    rw [hcase] at hnil
    exact List.cons_ne_nil a t hnil

theorem C7_coverage_score_witness :
    (0 : ℚ) ≤ (calculate_coverage_score []).toRat ∧
    (calculate_coverage_score []).toRat ≤ 1 ∧
    calculate_coverage_score [] = PyRat.ofInt 1 :=
  ⟨(C7_coverage_score_bounds []).1, (C7_coverage_score_bounds []).2.1,
   (C7_coverage_score_bounds []).2.2 (fun p hp => absurd hp (List.not_mem_nil p))⟩

/-! ## Claim C1 -/

/-- Store hit used to exhibit the `_search_with_embedding` failure: one
article with number 101 and similarity 0.9. -/
def c1Hit : StoreArticle :=
  { article_number := 101, text_arabic := [], text_english := [], similarity := ⟨9, 10⟩ }

/-- Environment whose store returns exactly one hit for every search. -/
def c1Env : RetrievalEnv :=
  { hydeMany := fun _ _ => none
    hydeOne := fun _ => none
    search := fun _ => some [c1Hit]
    getArticle := fun _ => none
    extractRefs := fun _ _ => []
    iterLatency := fun _ => 0 }

/-- Fresh session state for the C1 run. -/
def c1State : RetrievalState := { application_id := "c1" }

/-- Empty query log for the C1 run. -/
def c1Log : QueryLog :=
  { query_id := "q0", query_type := "direct", query_text := [], query_language := "arabic" }

/-- C1 (code bug): the `ArticleResult(...)` call inside
`_search_with_embedding` passes the keyword arguments `citation` and
`law_id`, which the `ArticleResult` dataclass does not declare, so the
call raises `TypeError` on the first hit and the enclosing `except`
swallows it.  Concretely: the store returns one hit, yet nothing is
merged into the session's article map and nothing is appended to the
query log — contradicting the documented behaviour that every hit is
merged and logged. -/
theorem C1_search_hits_never_merged_nor_logged :
    searchResultCallOk = false ∧
    c1Env.search [] = some [c1Hit] ∧
    (search_with_embedding c1Env [] c1State c1Log 1).1 = [] ∧
    (search_with_embedding c1Env [] c1State c1Log 1).2.1.articles = [] ∧
    (search_with_embedding c1Env [] c1State c1Log 1).2.2.articles_found = [] ∧
    (search_with_embedding c1Env [] c1State c1Log 1).2.2.similarities = [] := by
  refine ⟨by decide, rfl, rfl, rfl, rfl, rfl⟩

/-! ## Claim C2 -/

/-- A sequence of `add_article` calls threaded through the session
state. -/
def foldAdd (st : RetrievalState) (l : List ArticleResult) : RetrievalState :=
  l.foldl (fun s a => (s.add_article a).2) st

theorem PyRat.not_lt_iff {a b : PyRat} : ¬ a < b ↔ b ≤ a := by
  show ¬ (a.num * (b.den : ℤ) < b.num * (a.den : ℤ)) ↔
    b.num * (a.den : ℤ) ≤ a.num * (b.den : ℤ)
  exact Int.not_lt

theorem add_article_present_eq (st : RetrievalState) (a v : ArticleResult)
    (hget : pyDictGet st.articles a.article_number = some v) :
    (st.add_article a).2 =
      if v.similarity < a.similarity then
        { st with articles := pyDictSet st.articles a.article_number a }
      else st := by
  unfold RetrievalState.add_article
  rw [hget]
  by_cases h : v.similarity < a.similarity <;> simp [h]

theorem add_article_absent_eq (st : RetrievalState) (a : ArticleResult)
    (hget : pyDictGet st.articles a.article_number = none) :
    st.add_article a =
      (true, { st with articles := pyDictSet st.articles a.article_number a }) := by
  unfold RetrievalState.add_article
  rw [hget]

theorem foldAdd_same_number (n : ℤ) (l : List ArticleResult) :
    ∀ (st : RetrievalState) (v : ArticleResult),
      (∀ a ∈ l, a.article_number = n) →
      (∀ a ∈ l, a.similarity.posDen) →
      v.similarity.posDen →
      pyDictGet st.articles n = some v →
      countKey st.articles n = 1 →
      ∃ w : ArticleResult,
        pyDictGet (foldAdd st l).articles n = some w ∧
        countKey (foldAdd st l).articles n = 1 ∧
        (w = v ∨ w ∈ l) ∧
        v.similarity.toRat ≤ w.similarity.toRat ∧
        (∀ b ∈ l, b.similarity.toRat ≤ w.similarity.toRat) := by
  induction l with
  | nil =>
    intro st v _ _ _ hget hcount
    exact ⟨v, hget, hcount, Or.inl rfl, le_refl _,
      fun b hb => absurd hb (List.not_mem_nil b)⟩
  | cons a rest ih =>
    intro st v hnum hpos hvpos hget hcount
    have han : a.article_number = n := hnum a (by simp)
    have hapos : a.similarity.posDen := hpos a (by simp)
    have hgetA : pyDictGet st.articles a.article_number = some v := by rw [han]; exact hget
    have hstep : foldAdd st (a :: rest) = foldAdd (st.add_article a).2 rest := rfl
    by_cases hlt : v.similarity < a.similarity
    · have hadd : (st.add_article a).2 =
          { st with articles := pyDictSet st.articles a.article_number a } := by
        rw [add_article_present_eq st a v hgetA, if_pos hlt]
      have hget₁ : pyDictGet ((st.add_article a).2).articles n = some a := by
        rw [hadd]
        show pyDictGet (pyDictSet st.articles a.article_number a) n = some a
        rw [han]
        exact pyDictGet_pyDictSet_self st.articles n a
      have hcount₁ : countKey ((st.add_article a).2).articles n = 1 := by
        rw [hadd]
        show countKey (pyDictSet st.articles a.article_number a) n = 1
        rw [han]
        rw [countKey_pyDictSet_present st.articles n a v hget]
        exact hcount
      obtain ⟨w, hw1, hw2, hw3, hw4, hw5⟩ := ih (st.add_article a).2 a
        (fun b hb => hnum b (List.mem_cons_of_mem a hb))
        (fun b hb => hpos b (List.mem_cons_of_mem a hb)) hapos hget₁ hcount₁
      refine ⟨w, by rw [hstep]; exact hw1, by rw [hstep]; exact hw2, ?_, ?_, ?_⟩
      · rcases hw3 with h | h
        · exact Or.inr (h ▸ List.mem_cons_self a rest)
        · exact Or.inr (List.mem_cons_of_mem a h)
      · have hva : v.similarity.toRat < a.similarity.toRat :=
          (PyRat.lt_iff_toRat hvpos hapos).mp hlt
        exact le_trans (le_of_lt hva) hw4
      · intro b hb
        rcases List.mem_cons.mp hb with rfl | hb'
        · exact hw4
        · exact hw5 b hb'
    · have hadd : (st.add_article a).2 = st := by
        rw [add_article_present_eq st a v hgetA, if_neg hlt]
      obtain ⟨w, hw1, hw2, hw3, hw4, hw5⟩ := ih (st.add_article a).2 v
        (fun b hb => hnum b (List.mem_cons_of_mem a hb))
        (fun b hb => hpos b (List.mem_cons_of_mem a hb)) hvpos
        (by rw [hadd]; exact hget) (by rw [hadd]; exact hcount)
      refine ⟨w, by rw [hstep]; exact hw1, by rw [hstep]; exact hw2, ?_, hw4, ?_⟩
      · rcases hw3 with h | h
        · exact Or.inl h
        · exact Or.inr (List.mem_cons_of_mem a h)
      · intro b hb
        rcases List.mem_cons.mp hb with rfl | hb'
        · have hav : b.similarity.toRat ≤ v.similarity.toRat :=
            (PyRat.le_iff_toRat hapos hvpos).mp (PyRat.not_lt_iff.mp hlt)
          exact le_trans hav hw4
        · exact hw5 b hb'

theorem foldAdd_spec (st : RetrievalState) (n : ℤ) (l : List ArticleResult)
    (hne : l ≠ [])
    (hnum : ∀ a ∈ l, a.article_number = n)
    (hpos : ∀ a ∈ l, a.similarity.posDen)
    (habs : pyDictGet st.articles n = none) :
    ∃ w : ArticleResult,
      pyDictGet (foldAdd st l).articles n = some w ∧
      countKey (foldAdd st l).articles n = 1 ∧
      w ∈ l ∧
      (∀ b ∈ l, b.similarity.toRat ≤ w.similarity.toRat) := by
  cases l with
  | nil => exact absurd rfl hne
  | cons a rest =>
    have han : a.article_number = n := hnum a (by simp)
    have habsA : pyDictGet st.articles a.article_number = none := by rw [han]; exact habs
    have hadd : (st.add_article a).2 =
        { st with articles := pyDictSet st.articles a.article_number a } :=
      congrArg Prod.snd (add_article_absent_eq st a habsA)
    have hget₁ : pyDictGet ((st.add_article a).2).articles n = some a := by
      rw [hadd]
      show pyDictGet (pyDictSet st.articles a.article_number a) n = some a
      rw [han]
      exact pyDictGet_pyDictSet_self st.articles n a
    have hcount₁ : countKey ((st.add_article a).2).articles n = 1 := by
      rw [hadd]
      show countKey (pyDictSet st.articles a.article_number a) n = 1
      rw [han]
      exact countKey_pyDictSet_absent st.articles n a habs
    obtain ⟨w, hw1, hw2, hw3, hw4, hw5⟩ := foldAdd_same_number n rest (st.add_article a).2 a
      (fun b hb => hnum b (List.mem_cons_of_mem a hb))
      (fun b hb => hpos b (List.mem_cons_of_mem a hb))
      (hpos a (by simp)) hget₁ hcount₁
    refine ⟨w, hw1, hw2, ?_, ?_⟩
    · rcases hw3 with h | h
      · exact h ▸ List.mem_cons_self a rest
      · exact List.mem_cons_of_mem a h
    · intro b hb
      rcases List.mem_cons.mp hb with rfl | hb'
      · exact hw4
      · exact hw5 b hb'

/-- C2: for any non-empty sequence of `add_article` calls on one session
whose articles all share article number `n` (and have well-formed
similarity fractions), starting from a session that does not yet hold
`n`: afterwards the map holds exactly one record for `n`, that record is
one of the added articles, its similarity is an upper bound of every
similarity seen, and any permutation of the sequence ends with the same
stored similarity value. -/
theorem C2_dedupe_keeps_max_similarity (st : RetrievalState) (n : ℤ)
    (l : List ArticleResult)
    (hne : l ≠ [])
    (hnum : ∀ a ∈ l, a.article_number = n)
    (hpos : ∀ a ∈ l, a.similarity.posDen)
    (habs : pyDictGet st.articles n = none) :
    (∃ w : ArticleResult,
      pyDictGet (foldAdd st l).articles n = some w ∧
      countKey (foldAdd st l).articles n = 1 ∧
      w ∈ l ∧
      (∀ b ∈ l, b.similarity.toRat ≤ w.similarity.toRat)) ∧
    (∀ l' : List ArticleResult, l.Perm l' → ∀ w w' : ArticleResult,
      pyDictGet (foldAdd st l).articles n = some w →
      pyDictGet (foldAdd st l').articles n = some w' →
      w'.similarity.toRat = w.similarity.toRat) := by
  refine ⟨foldAdd_spec st n l hne hnum hpos habs, ?_⟩
  intro l' hperm w w' hw hw'
  obtain ⟨w₁, h1get, _, h1mem, h1ub⟩ := foldAdd_spec st n l hne hnum hpos habs
  obtain ⟨w₂, h2get, _, h2mem, h2ub⟩ := foldAdd_spec st n l'
    (by intro h; subst h; exact hne hperm.eq_nil)
    (fun a ha => hnum a (hperm.mem_iff.mpr ha))
    (fun a ha => hpos a (hperm.mem_iff.mpr ha)) habs
  have hww₁ : w = w₁ := Option.some_injective _ (hw.symm.trans h1get)
  have hww₂ : w' = w₂ := Option.some_injective _ (hw'.symm.trans h2get)
  rw [hww₁, hww₂]
  exact le_antisymm (h1ub w₂ (hperm.mem_iff.mpr h2mem))
    (h2ub w₁ (hperm.mem_iff.mp h1mem))

/-- Articles used by the C2 witness: three results sharing number 7 with
similarities 0.3, 0.9, 0.5. -/
def c2A1 : ArticleResult :=
  { article_number := 7, text_arabic := [], text_english := [],
    found_by_query := [], found_in_iteration := 1, similarity := ⟨3, 10⟩ }

/-- Second C2 witness article (the maximal one). -/
def c2A2 : ArticleResult :=
  { article_number := 7, text_arabic := [], text_english := [],
    found_by_query := [], found_in_iteration := 1, similarity := ⟨9, 10⟩ }

/-- Third C2 witness article. -/
def c2A3 : ArticleResult :=
  { article_number := 7, text_arabic := [], text_english := [],
    found_by_query := [], found_in_iteration := 2, similarity := ⟨5, 10⟩ }

/-- Fresh session state for the C2 witness. -/
def c2State : RetrievalState := { application_id := "w2" }

instance (a : PyRat) : Decidable a.posDen :=
  inferInstanceAs (Decidable (0 < a.den))

theorem C2_dedupe_witness :
    ∃ w : ArticleResult,
      pyDictGet (foldAdd c2State [c2A1, c2A2, c2A3]).articles 7 = some w ∧
      countKey (foldAdd c2State [c2A1, c2A2, c2A3]).articles 7 = 1 ∧
      w ∈ [c2A1, c2A2, c2A3] ∧
      (∀ b ∈ [c2A1, c2A2, c2A3], b.similarity.toRat ≤ w.similarity.toRat) :=
  (C2_dedupe_keeps_max_similarity c2State 7 [c2A1, c2A2, c2A3]
    (by decide) (by decide) (by decide) rfl).1

/-! ## Claim C8 -/

theorem areaCoverageStatus_articles_found (area_id : String) (area_config : AreaConfig)
    (articles : List ArticleResult) :
    (areaCoverageStatus area_id area_config articles).articles_found =
      (find_matching_articles articles area_config.keywords_ar
        area_config.keywords_en).map (·.article_number) := rfl

theorem areaCoverageStatus_avg (area_id : String) (area_config : AreaConfig)
    (articles : List ArticleResult) :
    (areaCoverageStatus area_id area_config articles).avg_similarity =
      pyAvgSimilarity ((find_matching_articles articles area_config.keywords_ar
        area_config.keywords_en).map (·.similarity)) := rfl

theorem areaCoverageStatus_status (area_id : String) (area_config : AreaConfig)
    (articles : List ArticleResult) :
    (areaCoverageStatus area_id area_config articles).status =
      (if areaCoveredCond area_config
          (find_matching_articles articles area_config.keywords_ar area_config.keywords_en)
        then AreaStatus.covered
        else if 0 < (find_matching_articles articles area_config.keywords_ar
            area_config.keywords_en).length
        then AreaStatus.weak
        else AreaStatus.missing) := rfl

theorem statusChain_spec (c : Prop) [Decidable c] (m : ℕ) :
    ((if c then AreaStatus.covered
        else if 0 < m then AreaStatus.weak else AreaStatus.missing) =
        AreaStatus.covered ↔ c) ∧
    ((if c then AreaStatus.covered
        else if 0 < m then AreaStatus.weak else AreaStatus.missing) =
        AreaStatus.weak ↔ 1 ≤ m ∧ ¬ c) ∧
    ((if c then AreaStatus.covered
        else if 0 < m then AreaStatus.weak else AreaStatus.missing) =
        AreaStatus.missing ↔ m = 0 ∧ ¬ c) := by
  by_cases h : c
  · simp [h]
  · by_cases h2 : 0 < m
    · simp [h, h2] <;> omega
    · simp [h, h2] <;> omega

theorem areaCoverageStatus_characterization (area_id : String)
    (area_config : AreaConfig) (articles : List ArticleResult) :
    ((areaCoverageStatus area_id area_config articles).status = AreaStatus.covered ↔
      area_config.min_articles.getD 1 ≤
        (areaCoverageStatus area_id area_config articles).articles_found.length ∧
      area_config.min_similarity.getD ⟨5, 10⟩ ≤
        (areaCoverageStatus area_id area_config articles).avg_similarity) ∧
    ((areaCoverageStatus area_id area_config articles).status = AreaStatus.weak ↔
      1 ≤ (areaCoverageStatus area_id area_config articles).articles_found.length ∧
      ¬ (area_config.min_articles.getD 1 ≤
          (areaCoverageStatus area_id area_config articles).articles_found.length ∧
         area_config.min_similarity.getD ⟨5, 10⟩ ≤
          (areaCoverageStatus area_id area_config articles).avg_similarity)) ∧
    ((areaCoverageStatus area_id area_config articles).status = AreaStatus.missing ↔
      (areaCoverageStatus area_id area_config articles).articles_found.length = 0 ∧
      ¬ (area_config.min_articles.getD 1 ≤
          (areaCoverageStatus area_id area_config articles).articles_found.length ∧
         area_config.min_similarity.getD ⟨5, 10⟩ ≤
          (areaCoverageStatus area_id area_config articles).avg_similarity)) := by
  have hlen : (areaCoverageStatus area_id area_config articles).articles_found.length =
      (find_matching_articles articles area_config.keywords_ar
        area_config.keywords_en).length := by
    rw [areaCoverageStatus_articles_found]
    exact List.length_map _ _
  have hcond : (area_config.min_articles.getD 1 ≤
      (areaCoverageStatus area_id area_config articles).articles_found.length ∧
      area_config.min_similarity.getD ⟨5, 10⟩ ≤
        (areaCoverageStatus area_id area_config articles).avg_similarity) ↔
      areaCoveredCond area_config
        (find_matching_articles articles area_config.keywords_ar
          area_config.keywords_en) := by
    unfold areaCoveredCond
    rw [hlen, areaCoverageStatus_avg]
  rw [areaCoverageStatus_status, hcond, hlen]
  exact statusChain_spec _ _

theorem analyze_fold_mem (areas : List (String × AreaConfig)) :
    ∀ (acc₀ : List (String × CoverageStatus) × List ArticleResult)
      (p : String × CoverageStatus),
      p ∈ (areas.foldl (fun acc q =>
        (acc.1 ++ [(q.1, areaCoverageStatus q.1 q.2 acc.2)],
         applyMatchedAreaUpdate q.1 q.2 acc.2)) acc₀).1 →
      p ∈ acc₀.1 ∨ ∃ (area_config : AreaConfig) (arts : List ArticleResult),
        (p.1, area_config) ∈ areas ∧ p.2 = areaCoverageStatus p.1 area_config arts := by
  induction areas with
  | nil =>
    intro acc₀ p hp
    exact Or.inl hp
  | cons q rest ih =>
    intro acc₀ p hp
    have hstep := ih (acc₀.1 ++ [(q.1, areaCoverageStatus q.1 q.2 acc₀.2)],
      applyMatchedAreaUpdate q.1 q.2 acc₀.2) p hp
    rcases hstep with hmem | ⟨cfg, arts, hcfg, heq⟩
    · rcases List.mem_append.mp hmem with h | h
      · exact Or.inl h
      · rcases List.mem_singleton.mp h with rfl
        exact Or.inr ⟨q.2, acc₀.2, List.mem_cons_self _ _, rfl⟩
    · exact Or.inr ⟨cfg, arts, List.mem_cons_of_mem q hcfg, heq⟩

/-- C8: every area record produced by `analyze_coverage` carries a
status derived from its own matching-article count and average
similarity by the rule: `covered` iff count ≥ the area's minimum-article
threshold and average similarity ≥ the area's minimum-similarity
threshold; `weak` iff at least one article matches and the covered
condition fails; `missing` iff no article matches and the covered
condition fails. -/
theorem C8_status_derivation_rule (required_areas : List (String × AreaConfig))
    (articles : List ArticleResult) :
    ∀ p ∈ (analyze_coverage required_areas articles).1,
      ∃ area_config : AreaConfig, (p.1, area_config) ∈ required_areas ∧
        (p.2.status = AreaStatus.covered ↔
          area_config.min_articles.getD 1 ≤ p.2.articles_found.length ∧
          area_config.min_similarity.getD ⟨5, 10⟩ ≤ p.2.avg_similarity) ∧
        (p.2.status = AreaStatus.weak ↔
          1 ≤ p.2.articles_found.length ∧
          ¬ (area_config.min_articles.getD 1 ≤ p.2.articles_found.length ∧
             area_config.min_similarity.getD ⟨5, 10⟩ ≤ p.2.avg_similarity)) ∧
        (p.2.status = AreaStatus.missing ↔
          p.2.articles_found.length = 0 ∧
          ¬ (area_config.min_articles.getD 1 ≤ p.2.articles_found.length ∧
             area_config.min_similarity.getD ⟨5, 10⟩ ≤ p.2.avg_similarity)) := by
  intro p hp
  have hmem : p ∈ ([] : List (String × CoverageStatus)) ∨
      ∃ (area_config : AreaConfig) (arts : List ArticleResult),
        (p.1, area_config) ∈ required_areas ∧
        p.2 = areaCoverageStatus p.1 area_config arts :=
    analyze_fold_mem required_areas ([], articles) p hp
  rcases hmem with h | ⟨cfg, arts, hcfg, heq⟩
  · exact absurd h (List.not_mem_nil p)
  · refine ⟨cfg, hcfg, ?_⟩
    rw [heq]
    exact areaCoverageStatus_characterization p.1 cfg arts

/-- Area configuration used by the C8 witness: one keyword, default
thresholds. -/
def c8Area : AreaConfig := { keywords_ar := ["وكالة".data] }

/-- Article used by the C8 witness: its text contains the keyword and
its similarity 0.9 exceeds the default 0.5 threshold. -/
def c8Article : ArticleResult :=
  { article_number := 5, text_arabic := "وكالة عامة".data, text_english := [],
    found_by_query := [], found_in_iteration := 1, similarity := ⟨9, 10⟩ }

theorem C8_status_derivation_witness :
    ∃ area_config : AreaConfig,
      ("poa_scope", area_config) ∈ [("poa_scope", c8Area)] ∧
      ((analyze_coverage [("poa_scope", c8Area)] [c8Article]).1.head?.getD
          ("", {area_id := "", area_name_en := "", area_name_ar := "", required := false})).2.status
        = AreaStatus.covered := by
  obtain ⟨cfg, hcfg, hcov, _, _⟩ :=
    C8_status_derivation_rule [("poa_scope", c8Area)] [c8Article]
      ((analyze_coverage [("poa_scope", c8Area)] [c8Article]).1.head?.getD
        ("", {area_id := "", area_name_en := "", area_name_ar := "", required := false}))
      (by decide)
  have hcfgeq : cfg = c8Area :=
    congrArg Prod.snd (List.mem_singleton.mp hcfg)
  subst hcfgeq
  exact ⟨c8Area, List.mem_singleton.mpr rfl, hcov.mpr (by decide)⟩

/-! ## Claim C9 -/

theorem fetch_referenced_articles_length (getArticle : ℤ → Option StoreArticle) :
    ∀ (nums : List ℤ) (acc : List StoreArticle),
      (nums.foldl (fun fetched art_num =>
        match getArticle art_num with
        | some article => fetched ++ [article]
        | none => fetched) acc).length ≤ acc.length + nums.length := by
  intro nums
  induction nums with
  | nil => intro acc; simp
  | cons n rest ih =>
    intro acc
    show (rest.foldl _ (match getArticle n with
      | some article => acc ++ [article]
      | none => acc)).length ≤ acc.length + (n :: rest).length
    cases getArticle n with
    | some article =>
      calc (rest.foldl _ (acc ++ [article])).length
          ≤ (acc ++ [article]).length + rest.length := ih (acc ++ [article])
        _ = acc.length + (n :: rest).length := by simp; omega
    | none =>
      calc (rest.foldl _ acc).length ≤ acc.length + rest.length := ih acc
        _ ≤ acc.length + (n :: rest).length := by simp

theorem sorted_take_le (l : List ℤ) (k : ℕ) :
    ∀ x ∈ (List.insertionSort (fun a b => a ≤ b) l).take k,
      ∀ y ∈ l, y ∉ (List.insertionSort (fun a b => a ≤ b) l).take k → x ≤ y := by
  intro x hx y hy hyn
  have hsorted : List.Sorted (fun a b : ℤ => a ≤ b)
      (List.insertionSort (fun a b => a ≤ b) l) :=
    List.sorted_insertionSort _ l
  have hperm : (List.insertionSort (fun a b => a ≤ b) l).Perm l :=
    List.perm_insertionSort _ l
  have hysort : y ∈ List.insertionSort (fun a b => a ≤ b) l := hperm.mem_iff.mpr hy
  have hsplit : (List.insertionSort (fun a b => a ≤ b) l).take k ++
      (List.insertionSort (fun a b => a ≤ b) l).drop k =
      List.insertionSort (fun a b => a ≤ b) l := List.take_append_drop _ _
  have hydrop : y ∈ (List.insertionSort (fun a b => a ≤ b) l).drop k := by
    rcases List.mem_append.mp (by rw [hsplit]; exact hysort) with h | h
    · exact absurd h hyn
    · exact h
  have hpw : List.Pairwise (fun a b : ℤ => a ≤ b)
      ((List.insertionSort (fun a b => a ≤ b) l).take k ++
       (List.insertionSort (fun a b => a ≤ b) l).drop k) := by
    rw [hsplit]
    exact hsorted
  exact (List.pairwise_append.mp hpw).2.2 x hx y hydrop

/-- C9: `expand_with_references` returns at most `max_refs` new articles
in one call, every fetched number is one of the candidate references,
and each fetched number is at most every candidate that was not fetched
(the numerically smallest candidates win the truncation).  The property
holds for every reference extractor, in particular the regex-based
`extract_references` of the source. -/
theorem C9_reference_fetch_cap (extractRefs : RefExtractor)
    (getArticle : ℤ → Option StoreArticle) (articles : List ArticleResult)
    (already_fetched : List ℤ) (iteration : ℕ) (max_refs : ℕ) :
    (expand_with_references extractRefs getArticle articles already_fetched
        iteration max_refs).1.length ≤ max_refs ∧
    (∀ x ∈ (expand_with_references extractRefs getArticle articles already_fetched
        iteration max_refs).2,
      x ∈ get_unique_references extractRefs articles already_fetched) ∧
    (∀ x ∈ (expand_with_references extractRefs getArticle articles already_fetched
        iteration max_refs).2,
      ∀ y ∈ get_unique_references extractRefs articles already_fetched,
        y ∉ (expand_with_references extractRefs getArticle articles already_fetched
          iteration max_refs).2 → x ≤ y) := by
  unfold expand_with_references
  by_cases hempty : (get_unique_references extractRefs articles already_fetched).isEmpty
  · simp only [hempty, if_pos]
    refine ⟨by simp, ?_, ?_⟩
    · intro x hx
      exact absurd hx (List.not_mem_nil x)
    · intro x hx
      exact absurd hx (List.not_mem_nil x)
  · simp only [hempty, if_neg, Bool.false_eq_true, not_false_iff]
    refine ⟨?_, ?_, ?_⟩
    · have hfetched : (fetch_referenced_articles getArticle
          ((List.insertionSort (fun a b => a ≤ b)
            (get_unique_references extractRefs articles already_fetched)).take max_refs)).length ≤
          ((List.insertionSort (fun a b => a ≤ b)
            (get_unique_references extractRefs articles already_fetched)).take max_refs).length := by
        have := fetch_referenced_articles_length getArticle
          ((List.insertionSort (fun a b => a ≤ b)
            (get_unique_references extractRefs articles already_fetched)).take max_refs) []
        simpa using this
      calc ((fetch_referenced_articles getArticle _).map _).length
          = (fetch_referenced_articles getArticle _).length := List.length_map _ _
        _ ≤ ((List.insertionSort (fun a b => a ≤ b)
            (get_unique_references extractRefs articles already_fetched)).take max_refs).length :=
          hfetched
        _ ≤ max_refs := by
          rw [List.length_take]
          omega
    · intro x hx
      have hx' : x ∈ List.insertionSort (fun a b => a ≤ b)
          (get_unique_references extractRefs articles already_fetched) :=
        List.take_subset _ _ hx
      exact (List.perm_insertionSort _ _).mem_iff.mp hx'
    · intro x hx y hy hyn
      exact sorted_take_le (get_unique_references extractRefs articles already_fetched)
        max_refs x hx y hy hyn

/-- Extractor used by the C9 witness: three candidate references. -/
def c9Extract : RefExtractor := fun _ _ => [9, 3, 7]

/-- Article set used by the C9 witness. -/
def c9Articles : List ArticleResult :=
  [{ article_number := 1, text_arabic := [], text_english := [],
     found_by_query := [], found_in_iteration := 1, similarity := ⟨1, 2⟩ }]

theorem C9_reference_fetch_cap_witness :
    (expand_with_references c9Extract (fun _ => none) c9Articles [] 3 2).1.length ≤ 2 ∧
    (3 : ℤ) ∈ (expand_with_references c9Extract (fun _ => none) c9Articles [] 3 2).2 ∧
    (9 : ℤ) ∈ get_unique_references c9Extract c9Articles [] ∧
    (9 : ℤ) ∉ (expand_with_references c9Extract (fun _ => none) c9Articles [] 3 2).2 ∧
    (3 : ℤ) ≤ 9 := by
  have h := C9_reference_fetch_cap c9Extract (fun _ => none) c9Articles [] 3 2
  refine ⟨h.1, by decide, by decide, by decide, ?_⟩
  exact h.2.2 3 (by decide) 9 (by decide) (by decide)

/-! ## Claim C10 -/

/-- Model response for the C10 counterexample: the delimiter followed by
the same text twice, so the delimiter split recovers two identical
pieces. -/
def c10Response : Str := "المادة (هـ):نصالمادة (هـ):نص".data

/-- C10 (counterexample): `generate_multiple_hypotheticals` does not
deduplicate — on this response it returns two identical entries, which
share the 100-character prefix key. -/
theorem C10_generate_many_dup_counterexample :
    ¬ (generate_multiple_hypotheticals (fun _ _ => some c10Response) [] 2).Pairwise
        (fun a b => a.take 100 ≠ b.take 100) := by decide

theorem dedupByPrefixKey_pairwise :
    ∀ (l seen acc : List Str),
      (∀ h ∈ acc, h.take 100 ∈ seen) →
      acc.Pairwise (fun a b => a.take 100 ≠ b.take 100) →
      (dedupByPrefixKey l seen acc).Pairwise (fun a b => a.take 100 ≠ b.take 100) := by
  intro l
  induction l with
  | nil =>
    intro seen acc _ hpw
    exact hpw
  | cons x rest ih =>
    intro seen acc hseen hpw
    show (if x.take 100 ∈ seen then dedupByPrefixKey rest seen acc
        else dedupByPrefixKey rest (seen ++ [x.take 100]) (acc ++ [x])).Pairwise _
    by_cases hx : x.take 100 ∈ seen
    · rw [if_pos hx]
      exact ih seen acc hseen hpw
    · rw [if_neg hx]
      have hseen' : ∀ h ∈ acc ++ [x], h.take 100 ∈ seen ++ [x.take 100] := by
        intro h hh
        rcases List.mem_append.mp hh with h' | h'
        · exact List.mem_append.mpr (Or.inl (hseen h h'))
        · rcases List.mem_singleton.mp h' with rfl
          exact List.mem_append.mpr (Or.inr (List.mem_singleton.mpr rfl))
      have hpw' : (acc ++ [x]).Pairwise (fun a b => a.take 100 ≠ b.take 100) := by
        rw [List.pairwise_append]
        refine ⟨hpw, List.pairwise_singleton _ _, ?_⟩
        intro a ha b hb
        rcases List.mem_singleton.mp hb with rfl
        intro heq
        exact hx (heq ▸ hseen a ha)
      exact ih (seen ++ [x.take 100]) (acc ++ [x]) hseen' hpw'

/-- C10 (amended): the prefix-key deduplication happens in
`generate_for_issue`, whose returned list never contains two entries
sharing the same 100-character prefix key — for every LLM oracle, issue
and hypothetical count, hence for every model response parsed through
the delimiter split, the blank-line fallback or the whole-response
fallback. -/
theorem C10_generate_for_issue_dedup (hydeMany : Str → ℕ → Option Str)
    (hydeOne : Str → Option Str) (issue : Issue) (num_hypotheticals : ℕ) :
    (generate_for_issue hydeMany hydeOne issue num_hypotheticals).Pairwise
      (fun a b => a.take 100 ≠ b.take 100) := by
  unfold generate_for_issue
  exact dedupByPrefixKey_pairwise _ [] []
    (fun h hh => absurd hh (List.not_mem_nil h)) List.Pairwise.nil

/-! ## State-preservation lemmas for the orchestrator loop -/

theorem searchResultCallOk_false : searchResultCallOk = false := by decide

@[simp]
theorem search_with_embedding_state (env : RetrievalEnv) (q : Str)
    (st : RetrievalState) (ql : QueryLog) (i : ℕ) :
    (search_with_embedding env q st ql i).2.1 = st := by
  unfold search_with_embedding
  cases henv : env.search q with
  | none => rfl
  | some articles =>
    cases articles with
    | nil => rfl
    | cons a rest =>
      have herr : searchHitsLoop q i (a :: rest) st ql [] = Except.error () := by
        show (if searchResultCallOk then _ else Except.error ()) = Except.error ()
        rw [searchResultCallOk_false]
        simp
      show (match searchHitsLoop q i (a :: rest) st ql [] with
        | Except.ok r => r
        | Except.error _ => ([], st, ql)).2.1 = st
      rw [herr]

@[simp]
theorem add_article_snd_iteration (st : RetrievalState) (a : ArticleResult) :
    ((st.add_article a).2).iteration = st.iteration := by
  unfold RetrievalState.add_article
  cases pyDictGet st.articles a.article_number with
  | none => rfl
  | some existing =>
    by_cases h : existing.similarity < a.similarity <;> simp [h]

theorem foldl_preserves_state {α : Type}
    (f : (RetrievalState × IterationLog) → α → (RetrievalState × IterationLog))
    (hf : ∀ acc x, (f acc x).1.iteration = acc.1.iteration ∧
      (f acc x).1.articles = acc.1.articles) :
    ∀ (l : List α) (acc : RetrievalState × IterationLog),
      (l.foldl f acc).1.iteration = acc.1.iteration ∧
      (l.foldl f acc).1.articles = acc.1.articles := by
  intro l
  induction l with
  | nil => intro acc; exact ⟨rfl, rfl⟩
  | cons x rest ih =>
    intro acc
    have h1 := hf acc x
    have h2 := ih (f acc x)
    exact ⟨h2.1.trans h1.1, h2.2.trans h1.2⟩

theorem broadHydeSearches_state (env : RetrievalEnv) (issue : Issue)
    (hypotheticals : List Str) (acc : RetrievalState × IterationLog) :
    (broadHydeSearches env issue hypotheticals acc).1.iteration = acc.1.iteration ∧
    (broadHydeSearches env issue hypotheticals acc).1.articles = acc.1.articles := by
  unfold broadHydeSearches
  exact foldl_preserves_state _ (fun acc x => by constructor <;> simp) _ acc

theorem broadDirectSearches_state (env : RetrievalEnv) (issue : Issue)
    (acc : RetrievalState × IterationLog) :
    (broadDirectSearches env issue acc).1.iteration = acc.1.iteration ∧
    (broadDirectSearches env issue acc).1.articles = acc.1.articles := by
  unfold broadDirectSearches
  refine foldl_preserves_state _ (fun acc x => ?_) _ acc
  by_cases h : x ∈ acc.1.queries_tried
  · simp [h]
  · constructor <;> simp [h]

theorem execute_broad_retrieval_state (env : RetrievalEnv) (cfg : RetrievalConfig)
    (issues : List Issue) (st : RetrievalState) (ilog : IterationLog) :
    (execute_broad_retrieval env cfg issues st ilog).1.iteration = st.iteration ∧
    (execute_broad_retrieval env cfg issues st ilog).1.articles = st.articles := by
  unfold execute_broad_retrieval
  refine foldl_preserves_state (α := Issue) _ (fun acc issue => ?_) issues (st, ilog)
  by_cases h : cfg.hyde_enabled = true
  · simp only [h, if_pos]
    have h1 := broadDirectSearches_state env issue
      (broadHydeSearches env issue
        (generate_for_issue env.hydeMany env.hydeOne issue cfg.hyde_num_hypotheticals)
        ({ acc.1 with total_llm_calls := acc.1.total_llm_calls + 1 },
         { acc.2 with llm_calls := acc.2.llm_calls + 1 }))
    have h2 := broadHydeSearches_state env issue
      (generate_for_issue env.hydeMany env.hydeOne issue cfg.hyde_num_hypotheticals)
      ({ acc.1 with total_llm_calls := acc.1.total_llm_calls + 1 },
       { acc.2 with llm_calls := acc.2.llm_calls + 1 })
    constructor
    · rw [h1.1, h2.1]
    · rw [h1.2, h2.2]
  · simp only [h, if_neg, Bool.false_eq_true, not_false_iff]
    exact broadDirectSearches_state env issue acc

theorem gapQuerySearches_state (env : RetrievalEnv) (cfg : RetrievalConfig)
    (gap : Gap) (acc : RetrievalState × IterationLog) :
    (gapQuerySearches env cfg gap acc).1.iteration = acc.1.iteration ∧
    (gapQuerySearches env cfg gap acc).1.articles = acc.1.articles := by
  unfold gapQuerySearches
  refine foldl_preserves_state _ (fun acc query => ?_) _ acc
  by_cases h : query ∈ acc.1.queries_tried
  · simp [h]
  · simp only [h, if_neg, not_false_iff]
    by_cases h2 : cfg.hyde_enabled = true
    · simp only [h2, if_pos]
      by_cases h3 : (generate_hypothetical env.hydeOne query).isEmpty
      · simp [h3]
      · constructor <;> simp [h3]
    · simp [h2]

theorem execute_gap_filling_state (env : RetrievalEnv) (cfg : RetrievalConfig)
    (gaps : List Gap) (st : RetrievalState) (ilog : IterationLog) :
    (execute_gap_filling env cfg gaps st ilog).1.iteration = st.iteration ∧
    (execute_gap_filling env cfg gaps st ilog).1.articles = st.articles := by
  unfold execute_gap_filling
  exact foldl_preserves_state _ (fun acc gap => gapQuerySearches_state env cfg gap acc)
    gaps (st, ilog)

theorem foldAddArticles_iteration :
    ∀ (l : List ArticleResult) (st : RetrievalState),
      (l.foldl (fun s article => (s.add_article article).2) st).iteration = st.iteration := by
  intro l
  induction l with
  | nil => intro st; rfl
  | cons a rest ih =>
    intro st
    exact (ih _).trans (add_article_snd_iteration st a)

theorem execute_reference_expansion_iteration (env : RetrievalEnv)
    (st : RetrievalState) (ilog : IterationLog) :
    (execute_reference_expansion env st ilog).1.iteration = st.iteration := by
  unfold execute_reference_expansion
  simp only []
  exact foldAddArticles_iteration _ st

theorem get_unique_references_nil (extractRefs : RefExtractor)
    (already_fetched : List ℤ) :
    get_unique_references extractRefs [] already_fetched = [] := rfl

theorem execute_reference_expansion_articles_nil (env : RetrievalEnv)
    (st : RetrievalState) (ilog : IterationLog) (h : st.articles = []) :
    (execute_reference_expansion env st ilog).1.articles = [] := by
  unfold execute_reference_expansion
  simp only [h]
  show ((expand_with_references env.extractRefs env.getArticle (([] : List (ℤ × ArticleResult)).map _) _ _ 10).1.foldl _ st).articles = []
  rw [show (expand_with_references env.extractRefs env.getArticle
    (([] : List (ℤ × ArticleResult)).map (fun p => p.2)) _ ilog.iteration_number 10) = ([], []) from rfl]
  exact h

theorem writeBackArticles_iteration (st : RetrievalState) (arts : List ArticleResult) :
    (writeBackArticles st arts).iteration = st.iteration := rfl

theorem writeBackArticles_articles_nil (st : RetrievalState)
    (arts : List ArticleResult) (h : st.articles = []) :
    (writeBackArticles st arts).articles = [] := by
  unfold writeBackArticles
  simp [h]

theorem analyze_coverage_snd_nil (areas : List (String × AreaConfig)) :
    (analyze_coverage areas []).2 = [] := by
  unfold analyze_coverage
  suffices h : ∀ (acc : List (String × CoverageStatus)),
      (areas.foldl (fun acc p =>
        (acc.1 ++ [(p.1, areaCoverageStatus p.1 p.2 acc.2)],
         applyMatchedAreaUpdate p.1 p.2 acc.2)) (acc, [])).2 = [] by
    exact h []
  induction areas with
  | nil => intro acc; rfl
  | cons q rest ih =>
    intro acc
    show (rest.foldl _ (acc ++ [(q.1, areaCoverageStatus q.1 q.2 [])],
      applyMatchedAreaUpdate q.1 q.2 [])).2 = []
    have : applyMatchedAreaUpdate q.1 q.2 [] = [] := rfl
    rw [this]
    exact ih _

attribute [simp] writeBackArticles_iteration execute_reference_expansion_iteration

@[simp]
theorem execute_broad_retrieval_iteration (env : RetrievalEnv) (cfg : RetrievalConfig)
    (issues : List Issue) (st : RetrievalState) (ilog : IterationLog) :
    (execute_broad_retrieval env cfg issues st ilog).1.iteration = st.iteration :=
  (execute_broad_retrieval_state env cfg issues st ilog).1

@[simp]
theorem execute_gap_filling_iteration (env : RetrievalEnv) (cfg : RetrievalConfig)
    (gaps : List Gap) (st : RetrievalState) (ilog : IterationLog) :
    (execute_gap_filling env cfg gaps st ilog).1.iteration = st.iteration :=
  (execute_gap_filling_state env cfg gaps st ilog).1

theorem iteration_step_iteration (env : RetrievalEnv) (cfg : RetrievalConfig)
    (analyzer_config required_areas : List (String × AreaConfig))
    (issues : List Issue) (st : RetrievalState) :
    (iteration_step env cfg analyzer_config required_areas issues st).1.iteration =
      st.iteration + 1 := by
  unfold iteration_step
  dsimp only
  split
  all_goals split
  all_goals (try split)
  all_goals (try split)
  all_goals simp
  all_goals (try split)
  all_goals simp

@[simp]
theorem execute_broad_retrieval_articles (env : RetrievalEnv) (cfg : RetrievalConfig)
    (issues : List Issue) (st : RetrievalState) (ilog : IterationLog) :
    (execute_broad_retrieval env cfg issues st ilog).1.articles = st.articles :=
  (execute_broad_retrieval_state env cfg issues st ilog).2

@[simp]
theorem execute_gap_filling_articles (env : RetrievalEnv) (cfg : RetrievalConfig)
    (gaps : List Gap) (st : RetrievalState) (ilog : IterationLog) :
    (execute_gap_filling env cfg gaps st ilog).1.articles = st.articles :=
  (execute_gap_filling_state env cfg gaps st ilog).2

@[simp]
theorem writeBackArticles_articles (st : RetrievalState) (arts : List ArticleResult) :
    (writeBackArticles st arts).articles = (st.articles.map (·.1)).zip arts := rfl

attribute [simp] analyze_coverage_snd_nil

theorem iteration_step_articles_nil (env : RetrievalEnv) (cfg : RetrievalConfig)
    (analyzer_config required_areas : List (String × AreaConfig))
    (issues : List Issue) (st : RetrievalState) (h : st.articles = []) :
    (iteration_step env cfg analyzer_config required_areas issues st).1.articles = [] := by
  unfold iteration_step
  dsimp only
  rw [h]
  repeat' split
  all_goals (try (rw [execute_reference_expansion_articles_nil env _ _ (by simp)]))
  all_goals simp_all

theorem check_end_conditions_false_lt (cfg : RetrievalConfig) (st : RetrievalState)
    (coverage : List (String × CoverageStatus))
    (h : (check_end_conditions cfg st coverage).1 = false) :
    st.iteration < cfg.max_iterations := by
  by_contra h'
  push_neg at h'
  rw [check_fires_at_max_iterations cfg st coverage h'] at h
  simp at h

theorem retrieve_loop_succ_eq (env : RetrievalEnv) (cfg : RetrievalConfig)
    (analyzer_config required_areas : List (String × AreaConfig)) (issues : List Issue)
    (fuel : ℕ) (st : RetrievalState) :
    retrieve_loop env cfg analyzer_config required_areas issues (fuel + 1) st =
      (if (check_end_conditions cfg
            (iteration_step env cfg analyzer_config required_areas issues st).1
            (iteration_step env cfg analyzer_config required_areas issues st).2).1 then
        { (iteration_step env cfg analyzer_config required_areas issues st).1 with
            stop_reason := some (check_end_conditions cfg
              (iteration_step env cfg analyzer_config required_areas issues st).1
              (iteration_step env cfg analyzer_config required_areas issues st).2).2 }
      else retrieve_loop env cfg analyzer_config required_areas issues fuel
        (iteration_step env cfg analyzer_config required_areas issues st).1) := rfl

theorem retrieve_loop_iteration_le (env : RetrievalEnv) (cfg : RetrievalConfig)
    (analyzer_config required_areas : List (String × AreaConfig)) (issues : List Issue) :
    ∀ (fuel : ℕ) (st : RetrievalState), st.iteration < cfg.max_iterations →
      (retrieve_loop env cfg analyzer_config required_areas issues fuel st).iteration ≤
        cfg.max_iterations := by
  intro fuel
  induction fuel with
  | zero => intro st h; exact le_of_lt h
  | succ fuel ih =>
    intro st h
    rw [retrieve_loop_succ_eq]
    by_cases hc : (check_end_conditions cfg
        (iteration_step env cfg analyzer_config required_areas issues st).1
        (iteration_step env cfg analyzer_config required_areas issues st).2).1 = true
    · rw [if_pos hc]
      show (iteration_step env cfg analyzer_config required_areas issues st).1.iteration ≤ _
      rw [iteration_step_iteration]
      omega
    · rw [if_neg hc]
      apply ih
      exact check_end_conditions_false_lt cfg _ _ (by simpa using hc)

theorem retrieve_loop_stop_some (env : RetrievalEnv) (cfg : RetrievalConfig)
    (analyzer_config required_areas : List (String × AreaConfig)) (issues : List Issue) :
    ∀ (fuel : ℕ) (st : RetrievalState), cfg.max_iterations ≤ st.iteration + fuel →
      (retrieve_loop env cfg analyzer_config required_areas issues (fuel + 1) st).stop_reason.isSome := by
  intro fuel
  induction fuel with
  | zero =>
    intro st h
    rw [retrieve_loop_succ_eq]
    have hiter : cfg.max_iterations ≤
        (iteration_step env cfg analyzer_config required_areas issues st).1.iteration := by
      rw [iteration_step_iteration]
      omega
    rw [check_fires_at_max_iterations cfg _ _ hiter]
    simp
  | succ fuel ih =>
    intro st h
    rw [retrieve_loop_succ_eq]
    by_cases hc : (check_end_conditions cfg
        (iteration_step env cfg analyzer_config required_areas issues st).1
        (iteration_step env cfg analyzer_config required_areas issues st).2).1 = true
    · rw [if_pos hc]
      simp
    · rw [if_neg hc]
      apply ih
      rw [iteration_step_iteration]
      omega

theorem retrieve_loop_fuel_irrelevant (env : RetrievalEnv) (cfg : RetrievalConfig)
    (analyzer_config required_areas : List (String × AreaConfig)) (issues : List Issue) :
    ∀ (fuel k : ℕ) (st : RetrievalState), cfg.max_iterations ≤ st.iteration + fuel →
      retrieve_loop env cfg analyzer_config required_areas issues (fuel + 1 + k) st =
      retrieve_loop env cfg analyzer_config required_areas issues (fuel + 1) st := by
  intro fuel
  induction fuel with
  | zero =>
    intro k st h
    have hiter : cfg.max_iterations ≤
        (iteration_step env cfg analyzer_config required_areas issues st).1.iteration := by
      rw [iteration_step_iteration]
      omega
    have hch := check_fires_at_max_iterations cfg
      (iteration_step env cfg analyzer_config required_areas issues st).1
      (iteration_step env cfg analyzer_config required_areas issues st).2 hiter
    have h1 : (0 : ℕ) + 1 + k = k + 1 := by omega
    rw [h1, retrieve_loop_succ_eq, retrieve_loop_succ_eq, hch]
    simp
  | succ fuel ih =>
    intro k st h
    have e1 : fuel + 1 + 1 + k = (fuel + 1 + k) + 1 := by omega
    rw [e1, retrieve_loop_succ_eq, retrieve_loop_succ_eq]
    by_cases hc : (check_end_conditions cfg
        (iteration_step env cfg analyzer_config required_areas issues st).1
        (iteration_step env cfg analyzer_config required_areas issues st).2).1 = true
    · rw [if_pos hc, if_pos hc]
    · rw [if_neg hc, if_neg hc]
      apply ih
      rw [iteration_step_iteration]
      omega

theorem retrieve_loop_articles_nil (env : RetrievalEnv) (cfg : RetrievalConfig)
    (analyzer_config required_areas : List (String × AreaConfig)) (issues : List Issue) :
    ∀ (fuel : ℕ) (st : RetrievalState), st.articles = [] →
      (retrieve_loop env cfg analyzer_config required_areas issues fuel st).articles = [] := by
  intro fuel
  induction fuel with
  | zero => intro st h; exact h
  | succ fuel ih =>
    intro st h
    rw [retrieve_loop_succ_eq]
    by_cases hc : (check_end_conditions cfg
        (iteration_step env cfg analyzer_config required_areas issues st).1
        (iteration_step env cfg analyzer_config required_areas issues st).2).1 = true
    · rw [if_pos hc]
      show (iteration_step env cfg analyzer_config required_areas issues st).1.articles = []
      exact iteration_step_articles_nil env cfg analyzer_config required_areas issues st h
    · rw [if_neg hc]
      exact ih _ (iteration_step_articles_nil env cfg analyzer_config required_areas issues st h)

/-! ## Claim C6 -/

theorem stopReason_value_ne_unknown (r : StopReason) : r.value ≠ "unknown" := by
  cases r <;> decide

/-- C6: for every configuration with `max_iterations ≥ 1` and every
environment, the retrieve loop terminates: each pass increments the
iteration counter by exactly one, the first stop condition fires once
the counter reaches `max_iterations`, the artifact's iteration count is
at most `max_iterations`, a stop reason is always recorded, and giving
the loop any extra fuel beyond the `max_iterations + 1` units `retrieve`
supplies does not change the result. -/
theorem C6_retrieve_terminates (env : RetrievalEnv) (cfg : RetrievalConfig)
    (areas_config : LegalAreasConfig) (issues : List Issue)
    (legal_brief : LegalBrief) (application_id : String)
    (h : 1 ≤ cfg.max_iterations) :
    (∀ st : RetrievalState,
      (iteration_step env cfg areas_config.legal_areas
        (get_required_areas areas_config legal_brief.transaction_type
          (legalBriefHasEntity legal_brief)) issues st).1.iteration = st.iteration + 1) ∧
    (∀ (st : RetrievalState) (coverage : List (String × CoverageStatus)),
      cfg.max_iterations ≤ st.iteration →
      check_end_conditions cfg st coverage = (true, StopReason.max_iterations_reached)) ∧
    (retrieve env cfg areas_config issues legal_brief application_id).2.total_iterations ≤
      cfg.max_iterations ∧
    (retrieve env cfg areas_config issues legal_brief application_id).2.stop_reason ≠
      "unknown" ∧
    (∀ extra : ℕ,
      retrieve_loop env cfg areas_config.legal_areas
        (get_required_areas areas_config legal_brief.transaction_type
          (legalBriefHasEntity legal_brief)) issues (cfg.max_iterations + 1 + extra)
        { application_id := application_id } =
      retrieve_loop env cfg areas_config.legal_areas
        (get_required_areas areas_config legal_brief.transaction_type
          (legalBriefHasEntity legal_brief)) issues (cfg.max_iterations + 1)
        { application_id := application_id }) := by
  refine ⟨fun st => iteration_step_iteration env cfg _ _ issues st,
    fun st coverage hge => check_fires_at_max_iterations cfg st coverage hge, ?_, ?_, ?_⟩
  · show (retrieve_loop env cfg areas_config.legal_areas _ issues
      (cfg.max_iterations + 1) { application_id := application_id }).iteration ≤
      cfg.max_iterations
    apply retrieve_loop_iteration_le
    show 0 < cfg.max_iterations
    omega
  · show ((retrieve_loop env cfg areas_config.legal_areas _ issues
      (cfg.max_iterations + 1) { application_id := application_id }).stop_reason.map
        StopReason.value).getD ("unknown") ≠ "unknown"
    have hsome := retrieve_loop_stop_some env cfg areas_config.legal_areas
      (get_required_areas areas_config legal_brief.transaction_type
        (legalBriefHasEntity legal_brief)) issues cfg.max_iterations
      { application_id := application_id } (by simp)
    rcases Option.isSome_iff_exists.mp hsome with ⟨r, hr⟩
    rw [hr]
    exact stopReason_value_ne_unknown r
  · intro extra
    exact retrieve_loop_fuel_irrelevant env cfg areas_config.legal_areas _ issues
      cfg.max_iterations extra { application_id := application_id } (by simp)

/-- Environment used by the C6 witness: every collaborator fails or
returns nothing. -/
def c6Env : RetrievalEnv :=
  { hydeMany := fun _ _ => none
    hydeOne := fun _ => none
    search := fun _ => none
    getArticle := fun _ => none
    extractRefs := fun _ _ => []
    iterLatency := fun _ => 0 }

theorem C6_retrieve_terminates_witness :
    (retrieve c6Env {} {} [] {} "w6").2.total_iterations ≤
      ({} : RetrievalConfig).max_iterations ∧
    (retrieve c6Env {} {} [] {} "w6").2.stop_reason ≠ "unknown" :=
  ⟨(C6_retrieve_terminates c6Env {} {} [] {} "w6" (by decide)).2.2.1,
   (C6_retrieve_terminates c6Env {} {} [] {} "w6" (by decide)).2.2.2.1⟩

/-! ## Claim C3 -/

/-- C3: the article list returned by `retrieve` is ordered by descending
similarity — for every pair of adjacent elements the earlier one's
similarity is at least the later one's.  The property holds vacuously:
because the `ArticleResult(...)` constructor call in
`_search_with_embedding` raises `TypeError` on every hit (claim C1) and
cross-reference expansion can only start from already-held articles,
every reachable run returns the empty list, which the first conjunct
records.  (Note the source returns `list(state.articles.values())`, the
map in insertion order, not `get_articles_list()`.) -/
theorem C3_retrieve_list_descending (env : RetrievalEnv) (cfg : RetrievalConfig)
    (areas_config : LegalAreasConfig) (issues : List Issue)
    (legal_brief : LegalBrief) (application_id : String) :
    (retrieve env cfg areas_config issues legal_brief application_id).1 = [] ∧
    List.Chain' (fun a b => b.similarity ≤ a.similarity)
      (retrieve env cfg areas_config issues legal_brief application_id).1 := by
  have hnil : (retrieve env cfg areas_config issues legal_brief application_id).1 = [] := by
    show ((retrieve_loop env cfg areas_config.legal_areas _ issues
      (cfg.max_iterations + 1) { application_id := application_id }).articles.map
        (fun p => p.2)) = []
    rw [retrieve_loop_articles_nil env cfg areas_config.legal_areas _ issues
      (cfg.max_iterations + 1) { application_id := application_id } rfl]
    rfl
  exact ⟨hnil, by rw [hnil]; exact List.chain'_nil⟩

/-! ## Claim C4 -/

/-- Modelled from the spec: the legal-areas configuration file
(`config/legal_areas.yaml`, read by the coverage analyzer at import
time) is not part of the source snapshot; per §4.2 of the spec it maps
each area to bilingual names, keyword lists, thresholds and template
queries, and marks areas required per transaction type with a documented
default requirement set for unknown types.  This instance carries one
`poa_scope` area, required by the default requirement set, matching the
scenario of claim C4. -/
def c4AreasConfig : LegalAreasConfig :=
  { legal_areas :=
      [("poa_scope",
        { name_en := some ("POA Scope")
          name_ar := some ("نطاق الوكالة")
          keywords_ar := ["وكالة".data]
          template_queries_ar := ["حدود الوكالة".data] })]
    transaction_requirements := []
    default_requirements := { required_areas := ["poa_scope"] } }

/-- The single issue of the C4 scenario, category `poa_scope`. -/
def c4Issue : Issue :=
  { issue_id := "issue_1"
    category := "poa_scope"
    primary_question := "سؤال".data
    search_queries_ar := ["استعلام".data] }

/-- Environment of the C4 scenario: the store returns zero matching
articles for every search; hypothetical generation fails (non-fatally),
so only the direct literal queries run. -/
def c4Env : RetrievalEnv :=
  { hydeMany := fun _ _ => none
    hydeOne := fun _ => none
    search := fun _ => some []
    getArticle := fun _ => none
    extractRefs := fun _ _ => []
    iterLatency := fun _ => 0 }

/-- C4 (counterexample): in the zero-matching-articles scenario the run
does not end after 3 iterations with `MAX_ITERATIONS_REACHED` — the
diminishing-returns condition (iteration ≥ 2 and at most one new
article in the previous iteration) fires first, after iteration 2. -/
theorem C4_scenario_counterexample :
    ¬ ((retrieve c4Env {} c4AreasConfig [c4Issue] {} "c4").2.stop_reason =
        "max_iterations_reached" ∧
       (retrieve c4Env {} c4AreasConfig [c4Issue] {} "c4").2.total_iterations = 3) := by
  decide

/-- C4 (amended): with one `poa_scope` issue and a store returning zero
matching articles for every search, `retrieve` runs 2 iterations and
ends with stop reason `DIMINISHING_RETURNS`, an article count of 0 and a
coverage score of 0.0. -/
theorem C4_scenario_zero_hits :
    (retrieve c4Env {} c4AreasConfig [c4Issue] {} "c4").2.stop_reason =
      "diminishing_returns" ∧
    (retrieve c4Env {} c4AreasConfig [c4Issue] {} "c4").2.total_iterations = 2 ∧
    (retrieve c4Env {} c4AreasConfig [c4Issue] {} "c4").2.total_articles = 0 ∧
    (retrieve c4Env {} c4AreasConfig [c4Issue] {} "c4").2.coverage_score = ⟨0, 1⟩ := by
  refine ⟨?_, ?_, ?_, ?_⟩ <;> decide
